import Mathlib

/-!
Verification development for the medenv CMEMS accessor
(src/medenv/cmems.py).

The Python code is shallowly embedded as follows.

Floating point coordinates (longitude, latitude, depth) and datetimes are
modelled by rationals; a datetime is encoded as the integer YYYYMMDD, an
order-preserving encoding, so the comparison date < date_limit of the source
is faithfully mirrored.  A Python value that is either a scalar or a pair
(a range) is modelled by the inductive type Pt.  Python exceptions are
modelled by the type PyError together with Except; a function that can raise
returns Except PyError.  An xarray DataArray is modelled as a list of named
coordinate axes together with a function giving the measured value at a
coordinate tuple; an xarray Dataset is a list of named DataArrays.  The
remote world (the opening of a network connection inside CMEMS.fetch) is
modelled by an oracle mapping the request URL and the attempt number to the
outcome of that attempt: none for a failure of the open, some ds for a
success yielding the dataset ds.
-/

set_option autoImplicit false

/-- The Python exceptions that the embedded code can raise. -/
inductive PyError where
  | valueError : String → PyError
  | keyError : String → PyError
  | attributeError : String → PyError
  | runtimeError : String → PyError
deriving Repr, DecidableEq

/-- A scalar-or-range argument, as in the Union types of get_value:
a Python scalar x is Pt.scalar x, a pair (a, b) is Pt.range a b. -/
inductive Pt (α : Type) where
  | scalar : α → Pt α
  | range : α → α → Pt α
deriving Repr, DecidableEq

/-- First-match lookup in an association list with string keys, the model of
a Python dict access d[k] returning an optional value.  The dicts of the
source have unique keys, for which first-match lookup is exact. -/
def lookupS {α : Type} (k : String) : List (String × α) → Option α
  | [] => none
  | (k', v) :: rest => if k' = k then some v else lookupS k rest

/-- Model of an xarray DataArray: named one-dimensional coordinate axes (in
dimension order) and the measured value as a function of one coordinate
value per axis (in axis order).  Taking the value to be a function of the
coordinate values expresses that a sample is determined by its coordinates. -/
structure DataArray where
  axes : List (String × List ℚ)
  val : List ℚ → ℚ

/-- Model of an xarray Dataset: its variables, each a DataArray. -/
structure Dataset where
  vars : List (String × DataArray)

/-- Indexing a Dataset by a variable name, datastore[name]; a missing
variable raises KeyError as in Python. -/
def Dataset.getVar (ds : Dataset) (k : String) : Except PyError DataArray :=
  match lookupS k ds.vars with
  | some da => Except.ok da
  | none => Except.error (PyError.keyError k)

/-- One entry of the static registry CMEMS._feature_params.  The key named
variable in the source is rendered var_name because variable is a Lean
keyword.  date_limit holds the YYYYMMDD encoding of the datetime. -/
structure FeatureParams where
  dataset_id : String
  var_name : String
  slice_mode : String
  has_depth : Bool
  date_limit : ℚ
deriving Repr, DecidableEq

/-- Python dict access params[key] on a registry descriptor, for the
string-valued keys.  Only the keys that the registry literal actually
populates are present; any other key raises KeyError, exactly as a Python
dict lookup of a missing key does.  The keys has_depth and date_limit hold
non-string values and are accessed through the structure fields directly. -/
def FeatureParams.getStr (p : FeatureParams) (key : String) : Except PyError String :=
  if key = "dataset_id" then Except.ok p.dataset_id
  else if key = "variable" then Except.ok p.var_name
  else if key = "slice_mode" then Except.ok p.slice_mode
  else Except.error (PyError.keyError key)

/-- The static registry CMEMS._feature_params, transcribed entry by entry
from the source.  Dates 01-01-1987 and 01-01-1999 are encoded 19870101 and
19990101. -/
def CMEMS.feature_params : List (String × FeatureParams) := [
  ("temperature",
    { dataset_id := "med-cmcc-tem-rean-d", var_name := "thetao",
      slice_mode := "lon-lat", has_depth := true, date_limit := 19870101 }),
  ("salinity",
    { dataset_id := "med-cmcc-sal-rean-d", var_name := "so",
      slice_mode := "lon-lat", has_depth := true, date_limit := 19870101 }),
  ("eastward-water-velocity",
    { dataset_id := "med-cmcc-cur-rean-d", var_name := "uo",
      slice_mode := "lon-lat", has_depth := true, date_limit := 19870101 }),
  ("northward-water-velocity",
    { dataset_id := "med-cmcc-cur-rean-d", var_name := "vo",
      slice_mode := "lon-lat", has_depth := true, date_limit := 19870101 }),
  ("mixed-layer-thickness",
    { dataset_id := "med-cmcc-mld-rean-d", var_name := "mlotst",
      slice_mode := "lon-lat", has_depth := false, date_limit := 19870101 }),
  ("sea-surface-above-geoid",
    { dataset_id := "med-cmcc-ssh-rean-d", var_name := "zos",
      slice_mode := "lon-lat", has_depth := false, date_limit := 19870101 }),
  ("phytoplankton-carbon-biomass",
    { dataset_id := "med-ogs-pft-rean-d", var_name := "phyc",
      slice_mode := "longitude-latitude", has_depth := true, date_limit := 19990101 }),
  ("chlorophyl-a",
    { dataset_id := "med-ogs-pft-rean-d", var_name := "chl",
      slice_mode := "longitude-latitude", has_depth := true, date_limit := 19990101 }),
  ("nitrate",
    { dataset_id := "med-ogs-nut-rean-d", var_name := "no3",
      slice_mode := "longitude-latitude", has_depth := true, date_limit := 19990101 }),
  ("phosphate",
    { dataset_id := "med-ogs-nut-rean-d", var_name := "po4",
      slice_mode := "longitude-latitude", has_depth := true, date_limit := 19990101 }),
  ("ammonium",
    { dataset_id := "med-ogs-nut-rean-d", var_name := "nh4",
      slice_mode := "longitude-latitude", has_depth := true, date_limit := 19990101 }),
  ("net-primary-production",
    { dataset_id := "med-ogs-bio-rean-d", var_name := "nppv",
      slice_mode := "longitude-latitude", has_depth := true, date_limit := 19990101 }),
  ("oxygen",
    { dataset_id := "med-ogs-bio-rean-d", var_name := "o2",
      slice_mode := "longitude-latitude", has_depth := true, date_limit := 19990101 }),
  ("ph",
    { dataset_id := "med-ogs-car-rean-d", var_name := "ph",
      slice_mode := "longitude-latitude", has_depth := true, date_limit := 19990101 }),
  ("dissolved-inorganic-carbon",
    { dataset_id := "med-ogs-car-rean-d", var_name := "dissic",
      slice_mode := "longitude-latitude", has_depth := true, date_limit := 19990101 }),
  ("alkalinity",
    { dataset_id := "med-ogs-car-rean-d", var_name := "talk",
      slice_mode := "longitude-latitude", has_depth := true, date_limit := 19990101 }),
  ("surface-partial-pressure-co2",
    { dataset_id := "med-ogs-co2-rean-d", var_name := "spco2",
      slice_mode := "longitude-latitude", has_depth := false, date_limit := 19990101 }),
  ("surface-co2-flux",
    { dataset_id := "med-ogs-co2-rean-d", var_name := "fpco2",
      slice_mode := "longitude-latitude", has_depth := false, date_limit := 19990101 })]

/-- The mutable state of a CMEMS accessor instance: its attribute dict.
datastores is the cache self.datastores; num_retries models the attribute
self.num_retries, with none meaning that the attribute is absent from the
instance (reading it then raises AttributeError). -/
structure CMEMS where
  datastores : List (String × Dataset)
  num_retries : Option Nat

/-- CMEMS.__init__(self, num_retries=10), after a successful login: it sets
self.datastores to the empty dict.  The source accepts the num_retries
argument but never assigns it to the instance, so the attribute
self.num_retries stays absent (none); the argument is therefore unused
here, exactly as in the source. -/
def CMEMS.init (num_retries : Nat) : CMEMS :=
  { datastores := [], num_retries := none }

/-- The retry loop of CMEMS.fetch.  oracle gives the outcome of each open
attempt (in the source the attempt evaluates open_url on the URL; the name
open_url is not imported and self.session is never set, so in the source
every attempt in fact fails, which the oracle can represent by returning
none).  On a failure the except branch first formats the warning message,
which reads self.num_retries: if that attribute is absent this raises
AttributeError; otherwise retries is incremented and once it reaches the
bound the loop raises the RuntimeError of the source.  The second component
counts the open attempts performed. -/
def fetch_loop (num_retries : Option Nat) (oracle : Nat → Option Dataset)
    (retries : Nat) : Except PyError Dataset × Nat :=
  match oracle retries with
  | some d => (Except.ok d, 1)
  | none =>
    match hnr : num_retries with
    | none => (Except.error (PyError.attributeError "num_retries"), 1)
    | some n =>
      if h : retries + 1 ≥ n then
        (Except.error (PyError.runtimeError "Cannot successfully access the dataset"), 1)
      else
        let r := fetch_loop num_retries oracle (retries + 1)
        (r.1, r.2 + 1)
termination_by num_retries.getD 0 - retries
decreasing_by simp [hnr]; omega

/-- CMEMS.fetch(self, prefix_dataset, dataset).  If the dataset identifier
is cached, the cached handle is returned with no open attempt; otherwise
the retry loop runs and, on success, the opened dataset is stored in the
cache and returned.  Returns the result, the state after the call and the
number of open attempts performed. -/
def CMEMS.fetch (st : CMEMS) (oracle : String → Nat → Option Dataset)
    (pfx_dataset dataset : String) : Except PyError Dataset × CMEMS × Nat :=
  match lookupS dataset st.datastores with
  | some d => (Except.ok d, st, 0)
  | none =>
    let url := "https://" ++ pfx_dataset ++ ".cmems-du.eu/thredds/dodsC/" ++ dataset
    match fetch_loop st.num_retries (oracle url) 0 with
    | (Except.error e, n) => (Except.error e, st, n)
    | (Except.ok d, n) =>
      (Except.ok d, { st with datastores := st.datastores ++ [(dataset, d)] }, n)

/-- The date guard of get_value: true when the requested date (a scalar, or
the first element of a range) precedes the date limit of the feature. -/
def dateBefore (date : Pt ℚ) (limit : ℚ) : Bool :=
  match date with
  | Pt.range d1 _ => decide (d1 < limit)
  | Pt.scalar d => decide (d < limit)

/-- The longitude key chosen by f_slice from the slice mode. -/
def lonKey (mode : String) : String :=
  if mode = "lon-lat" then "lon" else "longitude"

/-- The latitude key chosen by f_slice from the slice mode. -/
def latKey (mode : String) : String :=
  if mode = "lon-lat" then "lat" else "latitude"

/-- Deduplication of one coordinate axis, keeping the first occurrence of
each value (the accumulator holds the values already seen), the default
keep behaviour of drop_duplicates. -/
def dedupAux (seen : List ℚ) : List ℚ → List ℚ
  | [] => []
  | x :: xs => if x ∈ seen then dedupAux seen xs else x :: dedupAux (x :: seen) xs

/-- Deduplication of one coordinate axis, keeping first occurrences. -/
def dedupFirst (l : List ℚ) : List ℚ := dedupAux [] l

/-- ds.drop_duplicates(dim=...): duplicate index values are dropped along
every dimension. -/
def DataArray.dropDuplicates (da : DataArray) : DataArray :=
  { da with axes := da.axes.map (fun a => (a.1, dedupFirst a.2)) }

/-- Replace the value list of every axis named k by its image under f
applied to the list. -/
def DataArray.mapAxis (da : DataArray) (k : String) (f : List ℚ → List ℚ) : DataArray :=
  { da with axes := da.axes.map (fun a => if a.1 = k then (a.1, f a.2) else a) }

/-- The coordinate values of the axis named k, values.coords[k]; a missing
axis raises KeyError as in xarray. -/
def DataArray.axisGet (da : DataArray) (k : String) : Except PyError (List ℚ) :=
  match lookupS k da.axes with
  | some vs => Except.ok vs
  | none => Except.error (PyError.keyError k)

/-- The absolute value of a rational, written executably so that concrete
selections evaluate by reduction. -/
def absQ (q : ℚ) : ℚ := if q < 0 then -q else q

/-- The nearest element of a list to x, preferring the earlier element on a
tie; none on an empty list.  Models the method=nearest selection of one
label. -/
def nearestIn (x : ℚ) : List ℚ → Option ℚ
  | [] => none
  | v :: vs =>
    match nearestIn x vs with
    | none => some v
    | some w => some (if absQ (x - v) ≤ absQ (x - w) then v else w)

/-- ds.sel(**slice_coords_definition): for each named key, keep on that axis
the coordinate values lying in the closed interval of the slice (the label
slice of xarray on an ascending index selects the labels between the two
bounds, both included); a key naming no axis raises KeyError. -/
def selSlices (da : DataArray) : List (String × ℚ × ℚ) → Except PyError DataArray
  | [] => Except.ok da
  | (k, lohi) :: rest =>
    match lookupS k da.axes with
    | none => Except.error (PyError.keyError k)
    | some _ =>
      selSlices
        (da.mapAxis k (fun vs =>
          vs.filter (fun v => decide (lohi.1 ≤ v) && decide (v ≤ lohi.2)))) rest

/-- values.sel(**noslice_coords_definition) with method nearest: for each
named key, the axis collapses to the coordinate value nearest to the
requested scalar; a key naming no axis raises KeyError, and nearest
selection on an empty index raises (in pandas a ValueError; the exact
message is immaterial here). -/
def selNearests (da : DataArray) : List (String × ℚ) → Except PyError DataArray
  | [] => Except.ok da
  | (k, x) :: rest =>
    match lookupS k da.axes with
    | none => Except.error (PyError.keyError k)
    | some vs =>
      match nearestIn x vs with
      | none => Except.error (PyError.valueError ("empty index for nearest selection on " ++ k))
      | some w => selNearests (da.mapAxis k (fun _ => [w])) rest

/-- The Cartesian product of the named axes: every assignment of one
coordinate value per axis, in axis order.  This is the row set of
to_dataframe followed by reset_index, where every dimension (and every
collapsed nearest-selected coordinate) becomes a column. -/
def axesProduct : List (String × List ℚ) → List (List (String × ℚ))
  | [] => [[]]
  | (n, vs) :: rest =>
    vs.flatMap (fun v => (axesProduct rest).map (fun r => (n, v) :: r))

/-- values.to_dataframe() followed by reset_index(): one record per sampled
point, holding its coordinate columns and the measured value. -/
def DataArray.toAssignments (da : DataArray) : List (List (String × ℚ) × ℚ) :=
  (axesProduct da.axes).map (fun a => (a, da.val (a.map Prod.snd)))

/-- df_values[.."depth"..] = d on one record: the depth column is
overwritten when present and created otherwise. -/
def setDepthEntry (d : ℚ) (a : List (String × ℚ)) : List (String × ℚ) :=
  if (lookupS "depth" a).isSome then
    a.map (fun e => if e.1 = "depth" then (e.1, d) else e)
  else a ++ [("depth", d)]

/-- The statement df_values[.."depth"..] = depth of the source, executed
when the dataset has no depth axis: a scalar is broadcast to every row; a
pair, being list-like in pandas, is only accepted when its length equals
the number of rows (here two) and otherwise raises ValueError. -/
def assignDepthCol (depth : Pt ℚ) (assigns : List (List (String × ℚ) × ℚ)) :
    Except PyError (List (List (String × ℚ) × ℚ)) :=
  match depth with
  | Pt.scalar d => Except.ok (assigns.map (fun av => (setDepthEntry d av.1, av.2)))
  | Pt.range d1 d2 =>
    match assigns with
    | [r0, r1] => Except.ok [(setDepthEntry d1 r0.1, r0.2), (setDepthEntry d2 r1.1, r1.2)]
    | _ => Except.error (PyError.valueError "Length of values does not match length of index")

/-- The depth passthrough of f_slice: with a depth axis the records are kept
as they are; without one the requested depth is written into the depth
column of every record. -/
def depthAdjusted (depth : Pt ℚ) (has_depth : Bool)
    (assigns : List (List (String × ℚ) × ℚ)) :
    Except PyError (List (List (String × ℚ) × ℚ)) :=
  if has_depth then Except.ok assigns else assignDepthCol depth assigns

/-- One row of the final table of f_slice, indexed by
(time, longitude, latitude, depth) whatever the native naming of the
backend was: the set_index on [time, key_lon, key_lat, depth] followed by
the index rename to [time, longitude, latitude, depth]. -/
structure Row where
  time : ℚ
  longitude : ℚ
  latitude : ℚ
  depth : ℚ
  value : ℚ
deriving Repr, DecidableEq

/-- set_index([time, key_lon, key_lat, depth]) followed by the rename of
the index levels to [time, longitude, latitude, depth]: each record must
hold the four named columns, which become the index of the row; a missing
column raises KeyError in pandas. -/
def mkRows (key_lon key_lat : String) :
    List (List (String × ℚ) × ℚ) → Except PyError (List Row)
  | [] => Except.ok []
  | (a, v) :: rest =>
    match lookupS "time" a, lookupS key_lon a, lookupS key_lat a, lookupS "depth" a with
    | some t, some lo, some la, some d =>
      match mkRows key_lon key_lat rest with
      | Except.ok rows => Except.ok ({ time := t, longitude := lo, latitude := la,
                                       depth := d, value := v } :: rows)
      | Except.error e => Except.error e
    | _, _, _, _ => Except.error (PyError.keyError "set_index")

/-- df_values.mean().item(): after set_index the only data column is the
measured value, whose mean over the rows this is; the mean of an empty
frame is the float nan, modelled by none. -/
def meanVal (rows : List Row) : Option ℚ :=
  match rows with
  | [] => none
  | _ => some ((rows.map Row.value).sum / rows.length)

/-- The first component returned by f_slice: the flattened table, or a
single scalar under the mean reduction (none standing for the float nan of
an empty mean). -/
inductive SliceResult where
  | table : List Row → SliceResult
  | scalar : Option ℚ → SliceResult
deriving Repr, DecidableEq

/-- The selected_coordinates dict of f_slice: its entries in insertion
order.  The depth entry is the float nan, modelled none, when the dataset
has no depth axis. -/
structure SelectedCoords where
  entries : List (String × Option (List ℚ))
deriving Repr, DecidableEq

/-- The slice_coords_definition dict of f_slice, in insertion order: an axis
whose request is a pair contributes a slice on that axis; depth only
contributes when the dataset has a depth axis. -/
def sliceDefs (key_lon key_lat : String) (date : Pt ℚ) (long_lat : Pt ℚ × Pt ℚ)
    (depth : Pt ℚ) (has_depth : Bool) : List (String × ℚ × ℚ) :=
  (match long_lat.1 with
   | Pt.range a b => [(key_lon, a, b)]
   | Pt.scalar _ => []) ++
  (match long_lat.2 with
   | Pt.range a b => [(key_lat, a, b)]
   | Pt.scalar _ => []) ++
  (if has_depth then
     match depth with
     | Pt.range a b => [("depth", a, b)]
     | Pt.scalar _ => []
   else []) ++
  (match date with
   | Pt.range a b => [("time", a, b)]
   | Pt.scalar _ => [])

/-- The noslice_coords_definition dict of f_slice, in insertion order (its
method entry is the selection method, not an axis): an axis whose request
is a scalar contributes a nearest selection; depth only contributes when
the dataset has a depth axis. -/
def nosliceDefs (key_lon key_lat : String) (date : Pt ℚ) (long_lat : Pt ℚ × Pt ℚ)
    (depth : Pt ℚ) (has_depth : Bool) : List (String × ℚ) :=
  (match long_lat.1 with
   | Pt.scalar x => [(key_lon, x)]
   | Pt.range _ _ => []) ++
  (match long_lat.2 with
   | Pt.scalar x => [(key_lat, x)]
   | Pt.range _ _ => []) ++
  (if has_depth then
     match depth with
     | Pt.scalar x => [("depth", x)]
     | Pt.range _ _ => []
   else []) ++
  (match date with
   | Pt.scalar x => [("time", x)]
   | Pt.range _ _ => [])

/-- The selected_coordinates dict built at the end of f_slice from the
post-selection DataArray: the actual time, longitude, latitude and depth
coordinate values of the selection, the depth being the float nan (none)
when the dataset has no depth axis. -/
def selectedCoords (key_lon key_lat : String) (has_depth : Bool) (values : DataArray) :
    Except PyError SelectedCoords :=
  match values.axisGet "time" with
  | Except.error e => Except.error e
  | Except.ok ts =>
    match values.axisGet key_lon with
    | Except.error e => Except.error e
    | Except.ok ls =>
      match values.axisGet key_lat with
      | Except.error e => Except.error e
      | Except.ok las =>
        match (if has_depth then (values.axisGet "depth").map some else Except.ok none) with
        | Except.error e => Except.error e
        | Except.ok dep =>
          Except.ok { entries := [("time", some ts), (key_lon, some ls),
                                  (key_lat, some las), ("depth", dep)] }

/-- The inner function f_slice of get_value, over one DataArray: choose the
coordinate keys from the slice mode, build the slice and nearest selection
dicts, drop duplicated indices, apply the two selections, flatten to
records, write the requested depth through when the dataset has no depth
axis, index the rows by (time, longitude, latitude, depth), reduce to the
mean when requested, and report the actually selected coordinates. -/
def f_slice (ds : DataArray) (mode : String) (date : Pt ℚ)
    (long_lat : Pt ℚ × Pt ℚ) (depth : Pt ℚ) (has_depth : Bool)
    (reduction : Option String) : Except PyError (SliceResult × SelectedCoords) :=
  let key_lon := lonKey mode
  let key_lat := latKey mode
  match selSlices (DataArray.dropDuplicates ds)
      (sliceDefs key_lon key_lat date long_lat depth has_depth) with
  | Except.error e => Except.error e
  | Except.ok ds2 =>
    match selNearests ds2 (nosliceDefs key_lon key_lat date long_lat depth has_depth) with
    | Except.error e => Except.error e
    | Except.ok values =>
      match depthAdjusted depth has_depth values.toAssignments with
      | Except.error e => Except.error e
      | Except.ok assigns =>
        match mkRows key_lon key_lat assigns with
        | Except.error e => Except.error e
        | Except.ok rows =>
          let result := if reduction = some "mean" then SliceResult.scalar (meanVal rows)
                        else SliceResult.table rows
          match selectedCoords key_lon key_lat has_depth values with
          | Except.error e => Except.error e
          | Except.ok sc => Except.ok (result, sc)

/-- CMEMS.get_value.  The feature name is looked up in the static registry;
an absent name raises the unknown-feature ValueError.  The date guard then
runs, after which the source evaluates params[.."prefix"..] and
params[.."dataset"..] to call fetch, and params[.."field"..] to log and to
index the datastore, before applying f_slice.  Returns the result, the
state after the call and the number of open attempts performed by fetch
(0 when fetch was never invoked).  The date in the ValueError message is
rendered through toString of the encoded date, abstracting the str() of the
Python datetime. -/
def CMEMS.get_value (st : CMEMS) (oracle : String → Nat → Option Dataset)
    (date : Pt ℚ) (long_lat : Pt ℚ × Pt ℚ) (depth : Pt ℚ) (what : String)
    (reduction : Option String) :
    Except PyError (SliceResult × SelectedCoords) × CMEMS × Nat :=
  match lookupS what CMEMS.feature_params with
  | none =>
    (Except.error (PyError.valueError
      ("Does not know which dataset to download for the key " ++ what)), st, 0)
  | some params =>
    if dateBefore date params.date_limit then
      (Except.error (PyError.valueError
        ("Cannot get " ++ what ++ " before " ++ toString params.date_limit)), st, 0)
    else
      match params.getStr "prefix" with
      | Except.error e => (Except.error e, st, 0)
      | Except.ok pfx =>
        match params.getStr "dataset" with
        | Except.error e => (Except.error e, st, 0)
        | Except.ok dset =>
          match st.fetch oracle pfx dset with
          | (Except.error e, st', n) => (Except.error e, st', n)
          | (Except.ok datastore, st', n) =>
            match params.getStr "field" with
            | Except.error e => (Except.error e, st', n)
            | Except.ok field =>
              match datastore.getVar field with
              | Except.error e => (Except.error e, st', n)
              | Except.ok da =>
                match f_slice da params.slice_mode date long_lat depth
                    params.has_depth reduction with
                | Except.error e => (Except.error e, st', n)
                | Except.ok r => (Except.ok r, st', n)

/-- A sample dataset value used to instantiate theorems at concrete inputs. -/
def dsA : Dataset := { vars := [] }

/-- A sample accessor state holding one cached dataset handle. -/
def stCached : CMEMS :=
  { datastores := [("med-cmcc-tem-rean-d", dsA)], num_retries := none }

/-- A sample DataArray used to instantiate the slicing theorems: four named
axes and a constant-valued variable. -/
def daSample : DataArray :=
  { axes := [("time", [1, 2]), ("lon", [0, 5, 20]), ("lat", [3]), ("depth", [0, 10])],
    val := fun _ => 7 }

/-- A sample DataArray without a depth axis, in the longitude-latitude
naming convention. -/
def daFlat : DataArray :=
  { axes := [("time", [1, 2]), ("longitude", [0, 5]), ("latitude", [3])],
    val := fun _ => 7 }

/-- The depth-overwrite on a result: every row of a table takes the given
depth; a scalar result is unchanged. -/
def setDepthRes (d : ℚ) : SliceResult → SliceResult
  | SliceResult.table rows => SliceResult.table (rows.map (fun r => { r with depth := d }))
  | SliceResult.scalar o => SliceResult.scalar o

/-- Collapsing a table result to its mean scalar, as the mean reduction
does; a scalar result is unchanged. -/
def meanify : SliceResult → SliceResult
  | SliceResult.table rows => SliceResult.scalar (meanVal rows)
  | SliceResult.scalar o => SliceResult.scalar o

theorem lookupS_append_left {α : Type} (k : String) (l l' : List (String × α)) (v : α)
    (h : lookupS k l = some v) : lookupS k (l ++ l') = some v := by
  induction l with
  | nil => simp [lookupS] at h
  | cons hd tl ih =>
    obtain ⟨k', v'⟩ := hd
    by_cases hk : k' = k
    · simpa [lookupS, hk] using h
    · simp [lookupS, hk] at h ⊢
      exact ih h

theorem lookupS_append_none {α : Type} (k : String) (l l' : List (String × α))
    (h : lookupS k l = none) : lookupS k (l ++ l') = lookupS k l' := by
  induction l with
  | nil => simp
  | cons hd tl ih =>
    obtain ⟨k', v'⟩ := hd
    by_cases hk : k' = k
    · simp [lookupS, hk] at h
    · simp [lookupS, hk] at h ⊢
      exact ih h

/-- C5: within one accessor lifetime, repeated fetch calls for the same
dataset identifier trigger only one underlying open: a cached identifier is
returned with zero open attempts and unchanged state; after any successful
fetch the handle is cached and every later fetch of that identifier (under
any oracle) returns that handle with zero open attempts; and the cache only
grows, no fetch call removing or replacing an existing entry. -/
theorem fetch_cache_behaviour (st : CMEMS) (oracle : String → Nat → Option Dataset)
    (pfx d : String) :
    (∀ h, lookupS d st.datastores = some h →
        CMEMS.fetch st oracle pfx d = (Except.ok h, st, 0))
    ∧ (∀ ds st' n, CMEMS.fetch st oracle pfx d = (Except.ok ds, st', n) →
        lookupS d st'.datastores = some ds
        ∧ ∀ oracle', CMEMS.fetch st' oracle' pfx d = (Except.ok ds, st', 0))
    ∧ (∀ k v, lookupS k st.datastores = some v →
        lookupS k (CMEMS.fetch st oracle pfx d).2.1.datastores = some v) := by
  refine ⟨?_, ?_, ?_⟩
  · intro h hh
    simp [CMEMS.fetch, hh]
  · intro ds st' n hfetch
    cases hl : lookupS d st.datastores with
    | some h =>
      simp [CMEMS.fetch, hl] at hfetch
      obtain ⟨h1, h2, h3⟩ := hfetch
      subst h1; subst h2
      exact ⟨hl, fun oracle' => by simp [CMEMS.fetch, hl]⟩
    | none =>
      cases hloop : fetch_loop st.num_retries
          (oracle ("https://" ++ pfx ++ ".cmems-du.eu/thredds/dodsC/" ++ d)) 0 with
      | mk r cnt =>
        cases r with
        | error e => simp [CMEMS.fetch, hl, hloop] at hfetch
        | ok d0 =>
          simp [CMEMS.fetch, hl, hloop] at hfetch
          obtain ⟨h1, h2, h3⟩ := hfetch
          subst h1; subst h2
          have hcache : lookupS d (st.datastores ++ [(d, d0)]) = some d0 := by
            rw [lookupS_append_none d _ _ hl]
            simp [lookupS]
          refine ⟨hcache, fun oracle' => ?_⟩
          simp [CMEMS.fetch, hcache]
  · intro k v hv
    cases hl : lookupS d st.datastores with
    | some h => simpa [CMEMS.fetch, hl] using hv
    | none =>
      cases hloop : fetch_loop st.num_retries
          (oracle ("https://" ++ pfx ++ ".cmems-du.eu/thredds/dodsC/" ++ d)) 0 with
      | mk r cnt =>
        cases r with
        | error e => simpa [CMEMS.fetch, hl, hloop] using hv
        | ok d0 =>
          simp [CMEMS.fetch, hl, hloop]
          exact lookupS_append_left k _ _ v hv

/-- C9: fetch is atomic on failure: whenever fetch returns an error, the
state (in particular the datastores cache) is exactly the state before the
call; a cache entry is only written after a successful open. -/
theorem fetch_atomic_on_failure (st : CMEMS) (oracle : String → Nat → Option Dataset)
    (pfx d : String) (e : PyError)
    (h : (CMEMS.fetch st oracle pfx d).1 = Except.error e) :
    (CMEMS.fetch st oracle pfx d).2.1 = st := by
  cases hl : lookupS d st.datastores with
  | some hh => simp [CMEMS.fetch, hl]
  | none =>
    cases hloop : fetch_loop st.num_retries
        (oracle ("https://" ++ pfx ++ ".cmems-du.eu/thredds/dodsC/" ++ d)) 0 with
    | mk r cnt =>
      cases r with
      | error e' => simp [CMEMS.fetch, hl, hloop]
      | ok d0 => simp [CMEMS.fetch, hl, hloop] at h

theorem fetch_cache_behaviour_witness :
    CMEMS.fetch stCached (fun _ _ => none) "my" "med-cmcc-tem-rean-d" =
      (Except.ok dsA, stCached, 0) :=
  (fetch_cache_behaviour stCached (fun _ _ => none) "my" "med-cmcc-tem-rean-d").1 dsA rfl

theorem fetch_atomic_on_failure_witness :
    (CMEMS.fetch (CMEMS.init 10) (fun _ _ => none) "my" "med-cmcc-tem-rean-d").1 =
        Except.error (PyError.attributeError "num_retries")
    ∧ (CMEMS.fetch (CMEMS.init 10) (fun _ _ => none) "my" "med-cmcc-tem-rean-d").2.1 =
        CMEMS.init 10 := by
  have h1 : (CMEMS.fetch (CMEMS.init 10) (fun _ _ => none) "my" "med-cmcc-tem-rean-d").1 =
      Except.error (PyError.attributeError "num_retries") := by
    simp [CMEMS.fetch, CMEMS.init, fetch_loop, lookupS]
  exact ⟨h1, fetch_atomic_on_failure (CMEMS.init 10) (fun _ _ => none) "my"
    "med-cmcc-tem-rean-d" (PyError.attributeError "num_retries") h1⟩

/-- C2 (code bug in the source): the constructor accepts num_retries but
never assigns the attribute, so on the very first failed open attempt the
except branch of the retry loop, formatting its warning message, raises
AttributeError for self.num_retries: with an oracle that fails once and
would succeed on every later attempt, fetch performs exactly one attempt
and raises AttributeError instead of retrying, so it neither returns a
handle after a retry nor ever reaches the RuntimeError reserved for retry
exhaustion. -/
theorem fetch_retry_num_retries_code_bug :
    CMEMS.fetch (CMEMS.init 10)
        (fun _ k => if k = 0 then none else some dsA) "my" "med-cmcc-tem-rean-d" =
      (Except.error (PyError.attributeError "num_retries"), CMEMS.init 10, 1) := by
  simp [CMEMS.fetch, CMEMS.init, fetch_loop, lookupS]

theorem getStr_missing_key (p : FeatureParams) (k : String)
    (h1 : k ≠ "dataset_id") (h2 : k ≠ "variable") (h3 : k ≠ "slice_mode") :
    p.getStr k = Except.error (PyError.keyError k) := by
  simp [FeatureParams.getStr, h1, h2, h3]

/-- C1, counterexample: for the registered feature temperature and a query
date equal to its validity start, get_value does not proceed past the
registry access: evaluating params at the key prefix raises KeyError, the
state is unchanged and the connector performs zero open attempts — the
missing registry parameters are not silently coerced and the connector is
never invoked. -/
theorem get_value_registry_key_cex :
    CMEMS.get_value (CMEMS.init 10) (fun _ _ => none) (Pt.scalar 19870101)
        (Pt.scalar 0, Pt.scalar 0) (Pt.scalar 0) "temperature" none =
      (Except.error (PyError.keyError "prefix"), CMEMS.init 10, 0) := rfl

/-- C1, amended: the query path of get_value references the registry keys
prefix, dataset and field, which no registry descriptor populates; rather
than being silently coerced, the first such access raises KeyError for the
key prefix, so for every registered feature and a query date at or after
its validity start, get_value fails at the registry access with unchanged
state and the connector is never invoked (zero open attempts). -/
theorem get_value_registry_keyerror (st : CMEMS) (oracle : String → Nat → Option Dataset)
    (date : Pt ℚ) (long_lat : Pt ℚ × Pt ℚ) (depth : Pt ℚ) (what : String)
    (p : FeatureParams) (reduction : Option String)
    (h1 : lookupS what CMEMS.feature_params = some p)
    (h2 : dateBefore date p.date_limit = false) :
    CMEMS.get_value st oracle date long_lat depth what reduction =
      (Except.error (PyError.keyError "prefix"), st, 0) := by
  have hp : p.getStr "prefix" = Except.error (PyError.keyError "prefix") :=
    getStr_missing_key p "prefix" (by decide) (by decide) (by decide)
  simp [CMEMS.get_value, h1, h2, hp]

theorem get_value_registry_keyerror_witness :
    CMEMS.get_value (CMEMS.init 10) (fun _ _ => none) (Pt.scalar 20050615)
        (Pt.scalar 1, Pt.scalar 2) (Pt.scalar 3) "salinity" none =
      (Except.error (PyError.keyError "prefix"), CMEMS.init 10, 0) :=
  get_value_registry_keyerror (CMEMS.init 10) (fun _ _ => none) (Pt.scalar 20050615)
    (Pt.scalar 1, Pt.scalar 2) (Pt.scalar 3) "salinity" _ none rfl rfl

/-- C3: for every registered feature and every query whose date (a scalar,
or the first element of a range) precedes the validity start of the
feature, get_value raises the measure-undefined ValueError with unchanged
state and zero connector open attempts: the connector is never invoked. -/
theorem get_value_date_guard (st : CMEMS) (oracle : String → Nat → Option Dataset)
    (date : Pt ℚ) (long_lat : Pt ℚ × Pt ℚ) (depth : Pt ℚ) (what : String)
    (p : FeatureParams) (reduction : Option String)
    (h1 : lookupS what CMEMS.feature_params = some p)
    (h2 : dateBefore date p.date_limit = true) :
    CMEMS.get_value st oracle date long_lat depth what reduction =
      (Except.error (PyError.valueError
        ("Cannot get " ++ what ++ " before " ++ toString p.date_limit)), st, 0) := by
  simp [CMEMS.get_value, h1, h2]

theorem get_value_date_guard_witness :
    CMEMS.get_value (CMEMS.init 10) (fun _ _ => none) (Pt.scalar 19981231)
        (Pt.scalar 1, Pt.scalar 2) (Pt.scalar 3) "nitrate" none =
      (Except.error (PyError.valueError
        ("Cannot get " ++ "nitrate" ++ " before " ++ toString (19990101 : ℚ))), CMEMS.init 10, 0) :=
  get_value_date_guard (CMEMS.init 10) (fun _ _ => none) (Pt.scalar 19981231)
    (Pt.scalar 1, Pt.scalar 2) (Pt.scalar 3) "nitrate" _ none rfl rfl

/-- C4: a feature name absent from the static registry makes get_value fail
immediately with the unknown-feature ValueError, with unchanged state and
zero connector open attempts; a name present in the registry passes the
lookup, and get_value proceeds using exactly the descriptor bound to that
name: it raises the date ValueError of that descriptor when the date guard
fires and otherwise reaches the registry access for the connector call. -/
theorem get_value_registry_lookup (st : CMEMS) (oracle : String → Nat → Option Dataset)
    (date : Pt ℚ) (long_lat : Pt ℚ × Pt ℚ) (depth : Pt ℚ) (what : String)
    (reduction : Option String) :
    (lookupS what CMEMS.feature_params = none →
      CMEMS.get_value st oracle date long_lat depth what reduction =
        (Except.error (PyError.valueError
          ("Does not know which dataset to download for the key " ++ what)), st, 0))
    ∧ (∀ p, lookupS what CMEMS.feature_params = some p →
      CMEMS.get_value st oracle date long_lat depth what reduction =
        (if dateBefore date p.date_limit then
          (Except.error (PyError.valueError
            ("Cannot get " ++ what ++ " before " ++ toString p.date_limit)), st, 0)
         else (Except.error (PyError.keyError "prefix"), st, 0))) := by
  constructor
  · intro h
    simp [CMEMS.get_value, h]
  · intro p hp
    by_cases hd : dateBefore date p.date_limit
    · simp [CMEMS.get_value, hp, hd]
    · have hpe : p.getStr "prefix" = Except.error (PyError.keyError "prefix") :=
        getStr_missing_key p "prefix" (by decide) (by decide) (by decide)
      simp [CMEMS.get_value, hp, hd, hpe]

theorem get_value_registry_lookup_witness :
    CMEMS.get_value (CMEMS.init 10) (fun _ _ => none) (Pt.scalar 20000101)
        (Pt.scalar 0, Pt.scalar 0) (Pt.scalar 0) "bathymetry" none =
      (Except.error (PyError.valueError
        ("Does not know which dataset to download for the key " ++ "bathymetry")),
       CMEMS.init 10, 0) :=
  (get_value_registry_lookup (CMEMS.init 10) (fun _ _ => none) (Pt.scalar 20000101)
    (Pt.scalar 0, Pt.scalar 0) (Pt.scalar 0) "bathymetry" none).1 rfl

/-- C10: every reduction argument other than the exact string mean is
treated like no reduction at all: f_slice raises no unsupported-reduction
error and returns exactly the result of the same query with reduction None,
which is the full unreduced table whenever the query succeeds. -/
theorem f_slice_reduction_passthrough (ds : DataArray) (mode : String) (date : Pt ℚ)
    (long_lat : Pt ℚ × Pt ℚ) (depth : Pt ℚ) (has_depth : Bool)
    (reduction : Option String) (h : reduction ≠ some "mean") :
    f_slice ds mode date long_lat depth has_depth reduction =
      f_slice ds mode date long_lat depth has_depth none
    ∧ (∀ res sc, f_slice ds mode date long_lat depth has_depth reduction =
          Except.ok (res, sc) → ∃ rows, res = SliceResult.table rows) := by
  constructor
  · simp [f_slice, h]
  · intro res sc hok
    simp only [f_slice] at hok
    cases hs : selSlices (DataArray.dropDuplicates ds)
        (sliceDefs (lonKey mode) (latKey mode) date long_lat depth has_depth) with
    | error e => simp only [hs] at hok; exact Except.noConfusion hok
    | ok ds2 =>
      simp only [hs] at hok
      cases hn : selNearests ds2
          (nosliceDefs (lonKey mode) (latKey mode) date long_lat depth has_depth) with
      | error e => simp only [hn] at hok; exact Except.noConfusion hok
      | ok values =>
        simp only [hn] at hok
        cases hda : depthAdjusted depth has_depth values.toAssignments with
        | error e => simp only [hda] at hok; exact Except.noConfusion hok
        | ok assigns =>
          simp only [hda] at hok
          cases hr : mkRows (lonKey mode) (latKey mode) assigns with
          | error e => simp only [hr] at hok; exact Except.noConfusion hok
          | ok rows =>
            simp only [hr] at hok
            cases hsc : selectedCoords (lonKey mode) (latKey mode) has_depth values with
            | error e => simp only [hsc] at hok; exact Except.noConfusion hok
            | ok sc2 =>
              simp only [hsc, h, if_neg] at hok
              simp at hok
              exact ⟨rows, hok.1.symm⟩

theorem lookupS_cons {α : Type} (k k0 : String) (v : α) (rest : List (String × α)) :
    lookupS k ((k0, v) :: rest) = if k0 = k then some v else lookupS k rest := rfl

theorem lookupS_map_entry {α : Type} (k k' : String) (f : α → α) (l : List (String × α)) :
    lookupS k' (l.map (fun e => if e.1 = k then (e.1, f e.2) else e)) =
    if k' = k then (lookupS k' l).map f else lookupS k' l := by
  induction l with
  | nil => by_cases h : k' = k <;> simp [lookupS, h]
  | cons hd tl ih =>
    obtain ⟨k0, v0⟩ := hd
    dsimp only [List.map_cons]
    by_cases hk0 : k0 = k
    · rw [if_pos hk0]
      by_cases hk' : k0 = k'
      · have hkk : k' = k := hk'.symm.trans hk0
        rw [lookupS_cons, if_pos hk', if_pos hkk, lookupS_cons, if_pos hk']
        rfl
      · have hkk : ¬ k' = k := fun hh => hk' (hk0.trans hh.symm)
        rw [lookupS_cons, if_neg hk', ih, if_neg hkk, if_neg hkk,
          lookupS_cons, if_neg hk']
    · rw [if_neg hk0]
      by_cases hk' : k0 = k'
      · have hkk : ¬ k' = k := fun hh => hk0 (hk'.trans hh)
        rw [lookupS_cons, if_pos hk', if_neg hkk, lookupS_cons, if_pos hk']
      · rw [lookupS_cons, if_neg hk', ih]
        by_cases hkk : k' = k
        · rw [if_pos hkk, if_pos hkk, lookupS_cons, if_neg hk']
        · rw [if_neg hkk, if_neg hkk, lookupS_cons, if_neg hk']

theorem lookup_mapAxis (da : DataArray) (k k' : String) (f : List ℚ → List ℚ) :
    lookupS k' (da.mapAxis k f).axes =
    if k' = k then (lookupS k' da.axes).map f else lookupS k' da.axes :=
  lookupS_map_entry k k' f da.axes

theorem absQ_eq_abs (q : ℚ) : absQ q = |q| := by
  unfold absQ
  by_cases h : q < 0
  · rw [if_pos h, abs_of_neg h]
  · rw [if_neg h, abs_of_nonneg (le_of_not_lt h)]

theorem nearestIn_mem (x : ℚ) : ∀ (l : List ℚ) (w : ℚ), nearestIn x l = some w → w ∈ l := by
  intro l
  induction l with
  | nil => intro w h; simp [nearestIn] at h
  | cons v vs ih =>
    intro w h
    unfold nearestIn at h
    cases hn : nearestIn x vs with
    | none =>
      rw [hn] at h
      injection h with h
      subst h
      exact List.mem_cons_self v vs
    | some w0 =>
      rw [hn] at h
      injection h with h
      by_cases hc : absQ (x - v) ≤ absQ (x - w0)
      · rw [if_pos hc] at h; subst h; exact List.mem_cons_self v vs
      · rw [if_neg hc] at h; subst h; exact List.mem_cons_of_mem v (ih w0 hn)

theorem nearestIn_none (x : ℚ) : ∀ (l : List ℚ), nearestIn x l = none → l = [] := by
  intro l
  cases l with
  | nil => intro _; rfl
  | cons v vs =>
    intro h
    unfold nearestIn at h
    cases hn : nearestIn x vs with
    | none => rw [hn] at h; exact Option.noConfusion h
    | some w0 => rw [hn] at h; exact Option.noConfusion h

theorem nearestIn_min (x : ℚ) : ∀ (l : List ℚ) (w : ℚ), nearestIn x l = some w →
    ∀ v ∈ l, |x - w| ≤ |x - v| := by
  intro l
  induction l with
  | nil => intro w h; simp [nearestIn] at h
  | cons v vs ih =>
    intro w h u hu
    unfold nearestIn at h
    cases hn : nearestIn x vs with
    | none =>
      rw [hn] at h
      injection h with h
      subst h
      have hnil : vs = [] := nearestIn_none x vs hn
      subst hnil
      simp at hu
      subst hu
      exact le_refl _
    | some w0 =>
      rw [hn] at h
      injection h with h
      rcases List.mem_cons.mp hu with hv | hvs
      · subst hv
        by_cases hc : absQ (x - u) ≤ absQ (x - w0)
        · rw [if_pos hc] at h; subst h; exact le_refl _
        · rw [if_neg hc] at h
          subst h
          rw [← absQ_eq_abs, ← absQ_eq_abs]
          exact le_of_lt (lt_of_not_le hc)
      · by_cases hc : absQ (x - v) ≤ absQ (x - w0)
        · rw [if_pos hc] at h
          subst h
          have hle := ih w0 hn u hvs
          rw [← absQ_eq_abs, ← absQ_eq_abs] at hle ⊢
          exact le_trans hc hle
        · rw [if_neg hc] at h; subst h; exact ih w0 hn u hvs

theorem selSlices_lookup_sub : ∀ (defs : List (String × ℚ × ℚ)) (da da2 : DataArray),
    selSlices da defs = Except.ok da2 →
    ∀ k vs2, lookupS k da2.axes = some vs2 →
    ∃ vs1, lookupS k da.axes = some vs1 ∧ vs2 ⊆ vs1 := by
  intro defs
  induction defs with
  | nil =>
    intro da da2 h k vs2 h2
    injection h with h
    subst h
    exact ⟨vs2, h2, List.Subset.refl vs2⟩
  | cons hd rest ih =>
    obtain ⟨k0, lohi⟩ := hd
    intro da da2 h k vs2 h2
    unfold selSlices at h
    cases hl : lookupS k0 da.axes with
    | none => simp only [hl] at h; exact Except.noConfusion h
    | some vs0 =>
      simp only [hl] at h
      obtain ⟨vs1, hvs1, hsub⟩ := ih _ _ h k vs2 h2
      rw [lookup_mapAxis] at hvs1
      by_cases hk : k = k0
      · rw [if_pos hk] at hvs1
        cases hx : lookupS k da.axes with
        | none => rw [hx] at hvs1; exact Option.noConfusion hvs1
        | some vs =>
          rw [hx] at hvs1
          injection hvs1 with hvs1
          refine ⟨vs, rfl, fun v hv => ?_⟩
          have hmemf := hsub hv
          rw [← hvs1] at hmemf
          exact List.mem_of_mem_filter hmemf
      · rw [if_neg hk] at hvs1
        exact ⟨vs1, hvs1, hsub⟩

theorem selSlices_untouched : ∀ (defs : List (String × ℚ × ℚ)) (da da2 : DataArray),
    selSlices da defs = Except.ok da2 →
    ∀ k, k ∉ defs.map Prod.fst → lookupS k da2.axes = lookupS k da.axes := by
  intro defs
  induction defs with
  | nil =>
    intro da da2 h k _
    injection h with h
    subst h
    rfl
  | cons hd rest ih =>
    obtain ⟨k0, lohi⟩ := hd
    intro da da2 h k hk
    simp only [List.map_cons, List.mem_cons] at hk
    push_neg at hk
    obtain ⟨hk0, hkrest⟩ := hk
    unfold selSlices at h
    cases hl : lookupS k0 da.axes with
    | none => simp only [hl] at h; exact Except.noConfusion h
    | some vs0 =>
      simp only [hl] at h
      rw [ih _ _ h k hkrest, lookup_mapAxis, if_neg hk0]

theorem selSlices_bound : ∀ (defs : List (String × ℚ × ℚ)) (da da2 : DataArray),
    selSlices da defs = Except.ok da2 →
    ∀ k lo hi, (k, lo, hi) ∈ defs →
    ∀ vs2, lookupS k da2.axes = some vs2 → ∀ v ∈ vs2, lo ≤ v ∧ v ≤ hi := by
  intro defs
  induction defs with
  | nil => intro da da2 _ k lo hi hmem; simp at hmem
  | cons hd rest ih =>
    obtain ⟨k0, lohi0⟩ := hd
    intro da da2 h k lo hi hmem vs2 h2 v hv
    unfold selSlices at h
    cases hl : lookupS k0 da.axes with
    | none => simp only [hl] at h; exact Except.noConfusion h
    | some vs0 =>
      simp only [hl] at h
      rcases List.mem_cons.mp hmem with hhd | hrest
      · injection hhd with hk hlohi
        subst hk
        obtain ⟨vs1, hvs1, hsub⟩ := selSlices_lookup_sub rest _ _ h k vs2 h2
        rw [lookup_mapAxis, if_pos rfl, hl] at hvs1
        injection hvs1 with hvs1
        have hvmem := hsub hv
        rw [← hvs1] at hvmem
        have hfil := List.of_mem_filter hvmem
        subst hlohi
        simpa using hfil
      · exact ih _ _ h k lo hi hrest vs2 h2 v hv

theorem selNearests_lookup_sub : ∀ (ndefs : List (String × ℚ)) (da da2 : DataArray),
    selNearests da ndefs = Except.ok da2 →
    ∀ k vs2, lookupS k da2.axes = some vs2 →
    ∃ vs1, lookupS k da.axes = some vs1 ∧ vs2 ⊆ vs1 := by
  intro ndefs
  induction ndefs with
  | nil =>
    intro da da2 h k vs2 h2
    injection h with h
    subst h
    exact ⟨vs2, h2, List.Subset.refl vs2⟩
  | cons hd rest ih =>
    obtain ⟨k0, x0⟩ := hd
    intro da da2 h k vs2 h2
    unfold selNearests at h
    cases hl : lookupS k0 da.axes with
    | none => simp only [hl] at h; exact Except.noConfusion h
    | some vs0 =>
      simp only [hl] at h
      cases hw : nearestIn x0 vs0 with
      | none => simp only [hw] at h; exact Except.noConfusion h
      | some w =>
        simp only [hw] at h
        obtain ⟨vs1, hvs1, hsub⟩ := ih _ _ h k vs2 h2
        rw [lookup_mapAxis] at hvs1
        by_cases hk : k = k0
        · rw [if_pos hk] at hvs1
          subst hk
          rw [hl] at hvs1
          injection hvs1 with hvs1
          refine ⟨vs0, hl, fun v hv => ?_⟩
          have hv1 := hsub hv
          rw [← hvs1] at hv1
          simp at hv1
          subst hv1
          exact nearestIn_mem x0 vs0 v hw
        · rw [if_neg hk] at hvs1
          exact ⟨vs1, hvs1, hsub⟩

theorem selNearests_untouched : ∀ (ndefs : List (String × ℚ)) (da da2 : DataArray),
    selNearests da ndefs = Except.ok da2 →
    ∀ k, k ∉ ndefs.map Prod.fst → lookupS k da2.axes = lookupS k da.axes := by
  intro ndefs
  induction ndefs with
  | nil =>
    intro da da2 h k _
    injection h with h
    subst h
    rfl
  | cons hd rest ih =>
    obtain ⟨k0, x0⟩ := hd
    intro da da2 h k hk
    simp only [List.map_cons, List.mem_cons] at hk
    push_neg at hk
    obtain ⟨hk0, hkrest⟩ := hk
    unfold selNearests at h
    cases hl : lookupS k0 da.axes with
    | none => simp only [hl] at h; exact Except.noConfusion h
    | some vs0 =>
      simp only [hl] at h
      cases hw : nearestIn x0 vs0 with
      | none => simp only [hw] at h; exact Except.noConfusion h
      | some w =>
        simp only [hw] at h
        rw [ih _ _ h k hkrest, lookup_mapAxis, if_neg hk0]

theorem selNearests_nearest : ∀ (ndefs : List (String × ℚ)) (da da2 : DataArray),
    (ndefs.map Prod.fst).Nodup →
    selNearests da ndefs = Except.ok da2 →
    ∀ k x, (k, x) ∈ ndefs →
    ∃ vs w, lookupS k da.axes = some vs ∧ nearestIn x vs = some w
      ∧ lookupS k da2.axes = some [w] := by
  intro ndefs
  induction ndefs with
  | nil => intro da da2 _ _ k x hmem; simp at hmem
  | cons hd rest ih =>
    obtain ⟨k0, x0⟩ := hd
    intro da da2 hnodup h k x hmem
    simp only [List.map_cons, List.nodup_cons] at hnodup
    obtain ⟨hk0notin, hrestnodup⟩ := hnodup
    unfold selNearests at h
    cases hl : lookupS k0 da.axes with
    | none => simp only [hl] at h; exact Except.noConfusion h
    | some vs0 =>
      simp only [hl] at h
      cases hw : nearestIn x0 vs0 with
      | none => simp only [hw] at h; exact Except.noConfusion h
      | some w0 =>
        simp only [hw] at h
        rcases List.mem_cons.mp hmem with hhd | hrest
        · injection hhd with hk hx
          subst hk; subst hx
          refine ⟨vs0, w0, hl, hw, ?_⟩
          rw [selNearests_untouched rest _ _ h k hk0notin,
            lookup_mapAxis, if_pos rfl, hl]
          rfl
        · have hkne : k ≠ k0 := by
            intro hkk
            subst hkk
            exact hk0notin (List.mem_map.mpr ⟨(k, x), hrest, rfl⟩)
          obtain ⟨vs, w, hvs, hw2, hda2⟩ := ih _ _ hrestnodup h k x hrest
          rw [lookup_mapAxis, if_neg hkne] at hvs
          exact ⟨vs, w, hvs, hw2, hda2⟩

theorem axesProduct_lookup : ∀ (axes : List (String × List ℚ)) (asg : List (String × ℚ)),
    asg ∈ axesProduct axes → ∀ k v, lookupS k asg = some v →
    ∃ vs, lookupS k axes = some vs ∧ v ∈ vs := by
  intro axes
  induction axes with
  | nil =>
    intro asg hasg k v hk
    simp [axesProduct] at hasg
    subst hasg
    simp [lookupS] at hk
  | cons hd rest ih =>
    obtain ⟨n, vs⟩ := hd
    intro asg hasg k v hk
    simp only [axesProduct, List.mem_flatMap, List.mem_map] at hasg
    obtain ⟨v0, hv0, r, hr, hasg⟩ := hasg
    subst hasg
    by_cases hn : n = k
    · rw [lookupS_cons, if_pos hn] at hk
      injection hk with hk
      subst hk
      exact ⟨vs, by rw [lookupS_cons, if_pos hn], hv0⟩
    · rw [lookupS_cons, if_neg hn] at hk
      obtain ⟨vs1, h1, h2⟩ := ih r hr k v hk
      exact ⟨vs1, by rw [lookupS_cons, if_neg hn]; exact h1, h2⟩

theorem length_flatMap_map {α β : Type} (l : List α) (xs : List β) (g : α → β → β) :
    (l.flatMap (fun v => xs.map (g v))).length = l.length * xs.length := by
  induction l with
  | nil => simp
  | cons v vt ih => simp [ih, Nat.succ_mul, Nat.add_comm]

theorem axesProduct_length : ∀ (axes : List (String × List ℚ)),
    (axesProduct axes).length = (axes.map (fun a => a.2.length)).prod := by
  intro axes
  induction axes with
  | nil => simp [axesProduct]
  | cons hd rest ih =>
    obtain ⟨n, vs⟩ := hd
    simp only [axesProduct, List.map_cons, List.prod_cons]
    rw [length_flatMap_map vs (axesProduct rest) (fun v r => (n, v) :: r), ih]

theorem mkRows_length : ∀ (kl ka : String) (assigns : List (List (String × ℚ) × ℚ))
    (rows : List Row), mkRows kl ka assigns = Except.ok rows → rows.length = assigns.length := by
  intro kl ka assigns
  induction assigns with
  | nil =>
    intro rows h
    injection h with h
    subst h
    rfl
  | cons hd rest ih =>
    obtain ⟨a, v⟩ := hd
    intro rows h
    unfold mkRows at h
    cases h1 : lookupS "time" a with
    | none => simp only [h1] at h; exact Except.noConfusion h
    | some t =>
      simp only [h1] at h
      cases h2 : lookupS kl a with
      | none => simp only [h2] at h; exact Except.noConfusion h
      | some lo =>
        simp only [h2] at h
        cases h3 : lookupS ka a with
        | none => simp only [h3] at h; exact Except.noConfusion h
        | some la =>
          simp only [h3] at h
          cases h4 : lookupS "depth" a with
          | none => simp only [h4] at h; exact Except.noConfusion h
          | some dv =>
            simp only [h4] at h
            cases hrec : mkRows kl ka rest with
            | error e => simp only [hrec] at h; exact Except.noConfusion h
            | ok rows0 =>
              simp only [hrec] at h
              injection h with h
              subst h
              simp [ih rows0 hrec]

theorem mkRows_mem : ∀ (kl ka : String) (assigns : List (List (String × ℚ) × ℚ))
    (rows : List Row), mkRows kl ka assigns = Except.ok rows →
    ∀ r ∈ rows, ∃ a, (a, r.value) ∈ assigns ∧ lookupS "time" a = some r.time ∧
      lookupS kl a = some r.longitude ∧ lookupS ka a = some r.latitude ∧
      lookupS "depth" a = some r.depth := by
  intro kl ka assigns
  induction assigns with
  | nil =>
    intro rows h r hr
    injection h with h
    subst h
    simp at hr
  | cons hd rest ih =>
    obtain ⟨a, v⟩ := hd
    intro rows h r hr
    unfold mkRows at h
    cases h1 : lookupS "time" a with
    | none => simp only [h1] at h; exact Except.noConfusion h
    | some t =>
      simp only [h1] at h
      cases h2 : lookupS kl a with
      | none => simp only [h2] at h; exact Except.noConfusion h
      | some lo =>
        simp only [h2] at h
        cases h3 : lookupS ka a with
        | none => simp only [h3] at h; exact Except.noConfusion h
        | some la =>
          simp only [h3] at h
          cases h4 : lookupS "depth" a with
          | none => simp only [h4] at h; exact Except.noConfusion h
          | some dv =>
            simp only [h4] at h
            cases hrec : mkRows kl ka rest with
            | error e => simp only [hrec] at h; exact Except.noConfusion h
            | ok rows0 =>
              simp only [hrec] at h
              injection h with h
              subst h
              rcases List.mem_cons.mp hr with hhead | htail
              · subst hhead
                exact ⟨a, List.mem_cons_self _ _, h1, h2, h3, h4⟩
              · obtain ⟨a0, hmem, ha⟩ := ih rows0 hrec r htail
                exact ⟨a0, List.mem_cons_of_mem _ hmem, ha⟩

theorem lookupS_setDepthEntry (d : ℚ) (a : List (String × ℚ)) (k : String) :
    lookupS k (setDepthEntry d a) = if k = "depth" then some d else lookupS k a := by
  unfold setDepthEntry
  by_cases hp : (lookupS "depth" a).isSome
  · rw [if_pos hp, lookupS_map_entry "depth" k (fun _ => d) a]
    by_cases hk : k = "depth"
    · rw [if_pos hk, if_pos hk]
      subst hk
      obtain ⟨v, hv⟩ := Option.isSome_iff_exists.mp hp
      rw [hv]
      rfl
    · rw [if_neg hk, if_neg hk]
  · rw [if_neg hp]
    by_cases hk : k = "depth"
    · subst hk
      rw [if_pos rfl]
      have hnone : lookupS "depth" a = none := by
        cases hx : lookupS "depth" a with
        | none => rfl
        | some v => rw [hx] at hp; simp at hp
      rw [lookupS_append_none _ _ _ hnone]
      simp [lookupS]
    · rw [if_neg hk]
      cases hx : lookupS k a with
      | none =>
        rw [lookupS_append_none _ _ _ hx, lookupS_cons, if_neg (Ne.symm hk)]
        rfl
      | some v => exact lookupS_append_left _ _ _ _ hx

theorem depthAdjusted_transfer : ∀ (dep : Pt ℚ) (hd : Bool)
    (assigns assigns' : List (List (String × ℚ) × ℚ)),
    depthAdjusted dep hd assigns = Except.ok assigns' →
    ∀ a' v, (a', v) ∈ assigns' → ∃ a, (a, v) ∈ assigns ∧
      (∀ k, k ≠ "depth" → lookupS k a' = lookupS k a) ∧ (hd = true → a' = a) := by
  intro dep hd assigns assigns' h a' v hmem
  cases hd with
  | true =>
    unfold depthAdjusted at h
    simp at h
    subst h
    exact ⟨a', hmem, fun k _ => rfl, fun _ => rfl⟩
  | false =>
    unfold depthAdjusted at h
    simp only [Bool.false_eq_true, if_false] at h
    cases dep with
    | scalar d =>
      unfold assignDepthCol at h
      injection h with h
      subst h
      simp only [List.mem_map] at hmem
      obtain ⟨⟨a, v0⟩, hav, heq⟩ := hmem
      injection heq with heq1 heq2
      subst heq1
      subst heq2
      refine ⟨a, hav, fun k hk => ?_, fun hft => absurd hft (by decide)⟩
      rw [lookupS_setDepthEntry, if_neg hk]
    | range d1 d2 =>
      unfold assignDepthCol at h
      cases assigns with
      | nil => exact Except.noConfusion h
      | cons r0 t0 =>
        cases t0 with
        | nil => exact Except.noConfusion h
        | cons r1 t1 =>
          cases t1 with
          | cons r2 t2 => exact Except.noConfusion h
          | nil =>
            injection h with h
            subst h
            rcases List.mem_cons.mp hmem with h0 | hmem1
            · injection h0 with ha hv
              subst ha
              subst hv
              refine ⟨r0.1, by simp, fun k hk => ?_, fun hft => absurd hft (by decide)⟩
              rw [lookupS_setDepthEntry, if_neg hk]
            · rcases List.mem_cons.mp hmem1 with h1 | hmem2
              · injection h1 with ha hv
                subst ha
                subst hv
                refine ⟨r1.1, by simp, fun k hk => ?_, fun hft => absurd hft (by decide)⟩
                rw [lookupS_setDepthEntry, if_neg hk]
              · simp at hmem2

theorem depthAdjusted_depth_value : ∀ (d : ℚ) (assigns assigns' : List (List (String × ℚ) × ℚ)),
    depthAdjusted (Pt.scalar d) false assigns = Except.ok assigns' →
    ∀ a' v, (a', v) ∈ assigns' → lookupS "depth" a' = some d := by
  intro d assigns assigns' h a' v hmem
  unfold depthAdjusted at h
  simp only [Bool.false_eq_true, if_false] at h
  unfold assignDepthCol at h
  injection h with h
  subst h
  simp only [List.mem_map] at hmem
  obtain ⟨⟨a, v0⟩, hav, heq⟩ := hmem
  injection heq with heq1 heq2
  subst heq1
  rw [lookupS_setDepthEntry, if_pos rfl]

theorem axisGet_ok (da : DataArray) (k : String) (vs : List ℚ) :
    da.axisGet k = Except.ok vs ↔ lookupS k da.axes = some vs := by
  unfold DataArray.axisGet
  cases hx : lookupS k da.axes <;> simp

theorem selectedCoords_ok : ∀ (kl ka : String) (hd : Bool) (values : DataArray)
    (sc : SelectedCoords), selectedCoords kl ka hd values = Except.ok sc →
    ∃ ts ls las dep, lookupS "time" values.axes = some ts
      ∧ lookupS kl values.axes = some ls
      ∧ lookupS ka values.axes = some las
      ∧ sc.entries = [("time", some ts), (kl, some ls), (ka, some las), ("depth", dep)]
      ∧ (hd = true → ∃ zs, lookupS "depth" values.axes = some zs ∧ dep = some zs)
      ∧ (hd = false → dep = none) := by
  intro kl ka hd values sc h
  unfold selectedCoords at h
  cases h1 : values.axisGet "time" with
  | error e => simp only [h1] at h; exact Except.noConfusion h
  | ok ts =>
    simp only [h1] at h
    cases h2 : values.axisGet kl with
    | error e => simp only [h2] at h; exact Except.noConfusion h
    | ok ls =>
      simp only [h2] at h
      cases h3 : values.axisGet ka with
      | error e => simp only [h3] at h; exact Except.noConfusion h
      | ok las =>
        simp only [h3] at h
        cases hd with
        | true =>
          simp only [if_pos] at h
          cases h4 : values.axisGet "depth" with
          | error e =>
            simp only [h4, Except.map] at h
            exact Except.noConfusion h
          | ok zs =>
            simp only [h4, Except.map] at h
            injection h with h
            subst h
            exact ⟨ts, ls, las, some zs, (axisGet_ok _ _ _).mp h1, (axisGet_ok _ _ _).mp h2,
              (axisGet_ok _ _ _).mp h3, rfl,
              fun _ => ⟨zs, (axisGet_ok _ _ _).mp h4, rfl⟩,
              fun hff => absurd hff (by decide)⟩
        | false =>
          rw [if_neg (by decide)] at h
          injection h with h
          subst h
          exact ⟨ts, ls, las, none, (axisGet_ok _ _ _).mp h1, (axisGet_ok _ _ _).mp h2,
            (axisGet_ok _ _ _).mp h3, rfl,
            fun hft => absurd hft (by decide), fun _ => rfl⟩

theorem map_entry_names {α : Type} (k : String) (f : α → α) (l : List (String × α)) :
    (l.map (fun e => if e.1 = k then (e.1, f e.2) else e)).map Prod.fst = l.map Prod.fst := by
  induction l with
  | nil => rfl
  | cons hd tl ih =>
    obtain ⟨k0, v0⟩ := hd
    by_cases h : k0 = k <;> simp [h, ih]

theorem mapAxis_names (da : DataArray) (k : String) (f : List ℚ → List ℚ) :
    (da.mapAxis k f).axes.map Prod.fst = da.axes.map Prod.fst :=
  map_entry_names k f da.axes

theorem dropDuplicates_names (da : DataArray) :
    (DataArray.dropDuplicates da).axes.map Prod.fst = da.axes.map Prod.fst := by
  simp [DataArray.dropDuplicates]

theorem selSlices_names : ∀ (defs : List (String × ℚ × ℚ)) (da da2 : DataArray),
    selSlices da defs = Except.ok da2 → da2.axes.map Prod.fst = da.axes.map Prod.fst := by
  intro defs
  induction defs with
  | nil =>
    intro da da2 h
    injection h with h
    subst h
    rfl
  | cons hd rest ih =>
    obtain ⟨k0, lohi⟩ := hd
    intro da da2 h
    unfold selSlices at h
    cases hl : lookupS k0 da.axes with
    | none => simp only [hl] at h; exact Except.noConfusion h
    | some vs0 =>
      simp only [hl] at h
      rw [ih _ _ h, mapAxis_names]

theorem selNearests_names : ∀ (ndefs : List (String × ℚ)) (da da2 : DataArray),
    selNearests da ndefs = Except.ok da2 → da2.axes.map Prod.fst = da.axes.map Prod.fst := by
  intro ndefs
  induction ndefs with
  | nil =>
    intro da da2 h
    injection h with h
    subst h
    rfl
  | cons hd rest ih =>
    obtain ⟨k0, x0⟩ := hd
    intro da da2 h
    unfold selNearests at h
    cases hl : lookupS k0 da.axes with
    | none => simp only [hl] at h; exact Except.noConfusion h
    | some vs0 =>
      simp only [hl] at h
      cases hw : nearestIn x0 vs0 with
      | none => simp only [hw] at h; exact Except.noConfusion h
      | some w =>
        simp only [hw] at h
        rw [ih _ _ h, mapAxis_names]

theorem lonKey_ne_time (mode : String) : lonKey mode ≠ "time" := by
  unfold lonKey; split <;> decide

theorem lonKey_ne_depth (mode : String) : lonKey mode ≠ "depth" := by
  unfold lonKey; split <;> decide

theorem latKey_ne_time (mode : String) : latKey mode ≠ "time" := by
  unfold latKey; split <;> decide

theorem latKey_ne_depth (mode : String) : latKey mode ≠ "depth" := by
  unfold latKey; split <;> decide

theorem lonKey_ne_latKey (mode : String) : lonKey mode ≠ latKey mode := by
  by_cases h : mode = "lon-lat" <;> simp [lonKey, latKey, h]

theorem nosliceDefs_keys_nodup (mode : String) (date : Pt ℚ) (long_lat : Pt ℚ × Pt ℚ)
    (depth : Pt ℚ) (has_depth : Bool) :
    ((nosliceDefs (lonKey mode) (latKey mode) date long_lat depth has_depth).map
      Prod.fst).Nodup := by
  obtain ⟨l1, l2⟩ := long_lat
  by_cases hm : mode = "lon-lat" <;>
    cases l1 <;> cases l2 <;> cases depth <;> cases date <;> cases has_depth <;>
    simp [nosliceDefs, lonKey, latKey, hm]

theorem sliceDefs_mem_lon (kl ka : String) (date : Pt ℚ) (long_lat : Pt ℚ × Pt ℚ)
    (dep : Pt ℚ) (hd : Bool) (a b : ℚ) (hll : long_lat.1 = Pt.range a b) :
    (kl, a, b) ∈ sliceDefs kl ka date long_lat dep hd := by
  simp [sliceDefs, hll]

theorem sliceDefs_mem_lat (kl ka : String) (date : Pt ℚ) (long_lat : Pt ℚ × Pt ℚ)
    (dep : Pt ℚ) (hd : Bool) (a b : ℚ) (hll : long_lat.2 = Pt.range a b) :
    (ka, a, b) ∈ sliceDefs kl ka date long_lat dep hd := by
  simp [sliceDefs, hll]

theorem sliceDefs_mem_time (kl ka : String) (date : Pt ℚ) (long_lat : Pt ℚ × Pt ℚ)
    (dep : Pt ℚ) (hd : Bool) (a b : ℚ) (hdate : date = Pt.range a b) :
    ("time", a, b) ∈ sliceDefs kl ka date long_lat dep hd := by
  simp [sliceDefs, hdate]

theorem sliceDefs_mem_depth (kl ka : String) (date : Pt ℚ) (long_lat : Pt ℚ × Pt ℚ)
    (dep : Pt ℚ) (a b : ℚ) (hdep : dep = Pt.range a b) :
    ("depth", a, b) ∈ sliceDefs kl ka date long_lat dep true := by
  simp [sliceDefs, hdep]

theorem nosliceDefs_mem_lon (kl ka : String) (date : Pt ℚ) (long_lat : Pt ℚ × Pt ℚ)
    (dep : Pt ℚ) (hd : Bool) (x : ℚ) (hll : long_lat.1 = Pt.scalar x) :
    (kl, x) ∈ nosliceDefs kl ka date long_lat dep hd := by
  simp [nosliceDefs, hll]

theorem nosliceDefs_mem_lat (kl ka : String) (date : Pt ℚ) (long_lat : Pt ℚ × Pt ℚ)
    (dep : Pt ℚ) (hd : Bool) (x : ℚ) (hll : long_lat.2 = Pt.scalar x) :
    (ka, x) ∈ nosliceDefs kl ka date long_lat dep hd := by
  simp [nosliceDefs, hll]

theorem nosliceDefs_mem_time (kl ka : String) (date : Pt ℚ) (long_lat : Pt ℚ × Pt ℚ)
    (dep : Pt ℚ) (hd : Bool) (x : ℚ) (hdate : date = Pt.scalar x) :
    ("time", x) ∈ nosliceDefs kl ka date long_lat dep hd := by
  simp [nosliceDefs, hdate]

theorem nosliceDefs_mem_depth (kl ka : String) (date : Pt ℚ) (long_lat : Pt ℚ × Pt ℚ)
    (dep : Pt ℚ) (x : ℚ) (hdep : dep = Pt.scalar x) :
    ("depth", x) ∈ nosliceDefs kl ka date long_lat dep true := by
  simp [nosliceDefs, hdep]

theorem lonKey_not_mem_sliceDefs (mode : String) (date : Pt ℚ) (long_lat : Pt ℚ × Pt ℚ)
    (dep : Pt ℚ) (hd : Bool) (x : ℚ) (hll : long_lat.1 = Pt.scalar x) :
    lonKey mode ∉ (sliceDefs (lonKey mode) (latKey mode) date long_lat dep hd).map
      Prod.fst := by
  obtain ⟨l1, l2⟩ := long_lat
  have hl1 : l1 = Pt.scalar x := hll
  subst hl1
  by_cases hm : mode = "lon-lat" <;>
    cases l2 <;> cases dep <;> cases date <;> cases hd <;>
    simp [sliceDefs, lonKey, latKey, hm]

theorem latKey_not_mem_sliceDefs (mode : String) (date : Pt ℚ) (long_lat : Pt ℚ × Pt ℚ)
    (dep : Pt ℚ) (hd : Bool) (x : ℚ) (hll : long_lat.2 = Pt.scalar x) :
    latKey mode ∉ (sliceDefs (lonKey mode) (latKey mode) date long_lat dep hd).map
      Prod.fst := by
  obtain ⟨l1, l2⟩ := long_lat
  have hl2 : l2 = Pt.scalar x := hll
  subst hl2
  by_cases hm : mode = "lon-lat" <;>
    cases l1 <;> cases dep <;> cases date <;> cases hd <;>
    simp [sliceDefs, lonKey, latKey, hm]

theorem time_not_mem_sliceDefs (mode : String) (date : Pt ℚ) (long_lat : Pt ℚ × Pt ℚ)
    (dep : Pt ℚ) (hd : Bool) (x : ℚ) (hdate : date = Pt.scalar x) :
    "time" ∉ (sliceDefs (lonKey mode) (latKey mode) date long_lat dep hd).map
      Prod.fst := by
  subst hdate
  obtain ⟨l1, l2⟩ := long_lat
  by_cases hm : mode = "lon-lat" <;>
    cases l1 <;> cases l2 <;> cases dep <;> cases hd <;>
    simp [sliceDefs, lonKey, latKey, hm]

theorem depth_not_mem_sliceDefs (mode : String) (date : Pt ℚ) (long_lat : Pt ℚ × Pt ℚ)
    (dep : Pt ℚ) (hd : Bool) (x : ℚ) (hdep : dep = Pt.scalar x) :
    "depth" ∉ (sliceDefs (lonKey mode) (latKey mode) date long_lat dep hd).map
      Prod.fst := by
  subst hdep
  obtain ⟨l1, l2⟩ := long_lat
  by_cases hm : mode = "lon-lat" <;>
    cases l1 <;> cases l2 <;> cases date <;> cases hd <;>
    simp [sliceDefs, lonKey, latKey, hm]

theorem f_slice_ok_parts (ds : DataArray) (mode : String) (date : Pt ℚ)
    (long_lat : Pt ℚ × Pt ℚ) (depth : Pt ℚ) (has_depth : Bool)
    (reduction : Option String) (res : SliceResult) (sc : SelectedCoords)
    (h : f_slice ds mode date long_lat depth has_depth reduction = Except.ok (res, sc)) :
    ∃ ds2 values assigns rows,
      selSlices (DataArray.dropDuplicates ds)
          (sliceDefs (lonKey mode) (latKey mode) date long_lat depth has_depth)
        = Except.ok ds2
      ∧ selNearests ds2 (nosliceDefs (lonKey mode) (latKey mode) date long_lat depth has_depth)
        = Except.ok values
      ∧ depthAdjusted depth has_depth values.toAssignments = Except.ok assigns
      ∧ mkRows (lonKey mode) (latKey mode) assigns = Except.ok rows
      ∧ selectedCoords (lonKey mode) (latKey mode) has_depth values = Except.ok sc
      ∧ res = (if reduction = some "mean" then SliceResult.scalar (meanVal rows)
               else SliceResult.table rows) := by
  simp only [f_slice] at h
  cases hs : selSlices (DataArray.dropDuplicates ds)
      (sliceDefs (lonKey mode) (latKey mode) date long_lat depth has_depth) with
  | error e => simp only [hs] at h; exact Except.noConfusion h
  | ok ds2 =>
    simp only [hs] at h
    cases hn : selNearests ds2
        (nosliceDefs (lonKey mode) (latKey mode) date long_lat depth has_depth) with
    | error e => simp only [hn] at h; exact Except.noConfusion h
    | ok values =>
      simp only [hn] at h
      cases hda : depthAdjusted depth has_depth values.toAssignments with
      | error e => simp only [hda] at h; exact Except.noConfusion h
      | ok assigns =>
        simp only [hda] at h
        cases hr : mkRows (lonKey mode) (latKey mode) assigns with
        | error e => simp only [hr] at h; exact Except.noConfusion h
        | ok rows =>
          simp only [hr] at h
          cases hsc : selectedCoords (lonKey mode) (latKey mode) has_depth values with
          | error e => simp only [hsc] at h; exact Except.noConfusion h
          | ok sc2 =>
            simp only [hsc] at h
            injection h with h
            injection h with hres hsc2
            subst hsc2
            exact ⟨ds2, values, assigns, rows, rfl, hn, hda, hr, hsc, hres.symm⟩

theorem toAssignments_mem (values : DataArray) (a : List (String × ℚ)) (v : ℚ)
    (h : (a, v) ∈ values.toAssignments) : a ∈ axesProduct values.axes := by
  unfold DataArray.toAssignments at h
  simp only [List.mem_map] at h
  obtain ⟨asg, hasg, heq⟩ := h
  injection heq with h1 h2
  subst h1
  exact hasg

theorem table_rows_of_res (reduction : Option String) (rows0 : List Row) (res : SliceResult)
    (hres : res = (if reduction = some "mean" then SliceResult.scalar (meanVal rows0)
                   else SliceResult.table rows0)) :
    ∀ rows, res = SliceResult.table rows → rows = rows0 := by
  intro rows htab
  by_cases hred : reduction = some "mean"
  · rw [hres, if_pos hred] at htab
    exact SliceResult.noConfusion htab
  · rw [hres, if_neg hred] at htab
    injection htab with htab
    exact htab.symm

theorem f_slice_table_axis_facts (ds : DataArray) (mode : String) (date : Pt ℚ)
    (long_lat : Pt ℚ × Pt ℚ) (depth : Pt ℚ) (has_depth : Bool)
    (reduction : Option String) (res : SliceResult) (sc : SelectedCoords)
    (rows : List Row)
    (h : f_slice ds mode date long_lat depth has_depth reduction = Except.ok (res, sc))
    (htab : res = SliceResult.table rows) :
    ∃ values : DataArray,
      (∀ k a b, (k, a, b) ∈ sliceDefs (lonKey mode) (latKey mode) date long_lat
          depth has_depth →
        ∀ vs, lookupS k values.axes = some vs → ∀ v ∈ vs, a ≤ v ∧ v ≤ b)
      ∧ (∀ k x, (k, x) ∈ nosliceDefs (lonKey mode) (latKey mode) date long_lat
            depth has_depth →
          k ∉ (sliceDefs (lonKey mode) (latKey mode) date long_lat depth has_depth).map
            Prod.fst →
          ∃ vs w, lookupS k (DataArray.dropDuplicates ds).axes = some vs
            ∧ nearestIn x vs = some w ∧ lookupS k values.axes = some [w])
      ∧ (∀ r ∈ rows,
          (∃ vs, lookupS "time" values.axes = some vs ∧ r.time ∈ vs)
          ∧ (∃ vs, lookupS (lonKey mode) values.axes = some vs ∧ r.longitude ∈ vs)
          ∧ (∃ vs, lookupS (latKey mode) values.axes = some vs ∧ r.latitude ∈ vs)
          ∧ (has_depth = true →
              ∃ vs, lookupS "depth" values.axes = some vs ∧ r.depth ∈ vs)) := by
  obtain ⟨ds2, values, assigns, rows0, hs, hn, hda, hr, hsc, hres⟩ :=
    f_slice_ok_parts ds mode date long_lat depth has_depth reduction res sc h
  refine ⟨values, ?_, ?_, ?_⟩
  · intro k a b hmem vs hvs v hv
    obtain ⟨vs2, hvs2, hsub⟩ := selNearests_lookup_sub _ _ _ hn k vs hvs
    exact selSlices_bound _ _ _ hs k a b hmem vs2 hvs2 v (hsub hv)
  · intro k x hmem hnotmem
    obtain ⟨vs2, w, hvs2, hnear, hvalues⟩ :=
      selNearests_nearest _ _ _ (nosliceDefs_keys_nodup mode date long_lat depth has_depth)
        hn k x hmem
    rw [selSlices_untouched _ _ _ hs k hnotmem] at hvs2
    exact ⟨vs2, w, hvs2, hnear, hvalues⟩
  · intro r hrr
    rw [table_rows_of_res reduction rows0 res hres rows htab] at hrr
    obtain ⟨a2, hamem, ht1, ht2, ht3, ht4⟩ :=
      mkRows_mem (lonKey mode) (latKey mode) assigns rows0 hr r hrr
    obtain ⟨a0, ha0mem, htrans, heq⟩ :=
      depthAdjusted_transfer depth has_depth values.toAssignments assigns hda a2 r.value hamem
    have hprod := toAssignments_mem values a0 r.value ha0mem
    have hmemof : ∀ (k : String), k ≠ "depth" → ∀ xv, lookupS k a2 = some xv →
        ∃ vs, lookupS k values.axes = some vs ∧ xv ∈ vs := by
      intro k hk xv hxv
      have hxv0 : lookupS k a0 = some xv := by
        rw [← htrans k hk]
        exact hxv
      exact axesProduct_lookup values.axes a0 hprod k xv hxv0
    refine ⟨hmemof "time" (by decide) r.time ht1,
      hmemof (lonKey mode) (lonKey_ne_depth mode) r.longitude ht2,
      hmemof (latKey mode) (latKey_ne_depth mode) r.latitude ht3, fun hdt => ?_⟩
    have ha20 : a2 = a0 := heq hdt
    have hd0 : lookupS "depth" a0 = some r.depth := by
      rw [← ha20]
      exact ht4
    exact axesProduct_lookup values.axes a0 hprod "depth" r.depth hd0

/-- C6: for each of the four axes — longitude, latitude, time, and depth
when the dataset has a depth axis — the slicer turns a two-element range
into a range slice and a scalar into a nearest-point selection, using the
coordinate-naming convention of the feature for the backend keys: for a
range query (a, b) on an axis every row of the result table has that
coordinate within the closed interval from a to b, and for a scalar query
x on an axis every row of the result table carries exactly the coordinate
of the deduplicated axis nearest to x. -/
theorem f_slice_axis_selection (ds : DataArray) (mode : String) (date : Pt ℚ)
    (long_lat : Pt ℚ × Pt ℚ) (depth : Pt ℚ) (has_depth : Bool)
    (reduction : Option String) (res : SliceResult) (sc : SelectedCoords)
    (h : f_slice ds mode date long_lat depth has_depth reduction = Except.ok (res, sc)) :
    (∀ a b rows, long_lat.1 = Pt.range a b → res = SliceResult.table rows →
        ∀ r ∈ rows, a ≤ r.longitude ∧ r.longitude ≤ b)
    ∧ (∀ x rows, long_lat.1 = Pt.scalar x → res = SliceResult.table rows →
        ∀ r ∈ rows, ∃ vs, lookupS (lonKey mode) (DataArray.dropDuplicates ds).axes = some vs
          ∧ r.longitude ∈ vs ∧ ∀ v ∈ vs, |x - r.longitude| ≤ |x - v|)
    ∧ (∀ a b rows, long_lat.2 = Pt.range a b → res = SliceResult.table rows →
        ∀ r ∈ rows, a ≤ r.latitude ∧ r.latitude ≤ b)
    ∧ (∀ x rows, long_lat.2 = Pt.scalar x → res = SliceResult.table rows →
        ∀ r ∈ rows, ∃ vs, lookupS (latKey mode) (DataArray.dropDuplicates ds).axes = some vs
          ∧ r.latitude ∈ vs ∧ ∀ v ∈ vs, |x - r.latitude| ≤ |x - v|)
    ∧ (∀ a b rows, date = Pt.range a b → res = SliceResult.table rows →
        ∀ r ∈ rows, a ≤ r.time ∧ r.time ≤ b)
    ∧ (∀ x rows, date = Pt.scalar x → res = SliceResult.table rows →
        ∀ r ∈ rows, ∃ vs, lookupS "time" (DataArray.dropDuplicates ds).axes = some vs
          ∧ r.time ∈ vs ∧ ∀ v ∈ vs, |x - r.time| ≤ |x - v|)
    ∧ (∀ a b rows, has_depth = true → depth = Pt.range a b → res = SliceResult.table rows →
        ∀ r ∈ rows, a ≤ r.depth ∧ r.depth ≤ b)
    ∧ (∀ x rows, has_depth = true → depth = Pt.scalar x → res = SliceResult.table rows →
        ∀ r ∈ rows, ∃ vs, lookupS "depth" (DataArray.dropDuplicates ds).axes = some vs
          ∧ r.depth ∈ vs ∧ ∀ v ∈ vs, |x - r.depth| ≤ |x - v|) := by
  refine ⟨?_, ?_, ?_, ?_, ?_, ?_, ?_, ?_⟩
  · intro a b rows hll htab r hr
    obtain ⟨values, hrange, hscalar, hmem⟩ := f_slice_table_axis_facts ds mode date long_lat
      depth has_depth reduction res sc rows h htab
    obtain ⟨vs, hvs, hfield⟩ := (hmem r hr).2.1
    exact hrange (lonKey mode) a b
      (sliceDefs_mem_lon (lonKey mode) (latKey mode) date long_lat depth has_depth a b hll)
      vs hvs _ hfield
  · intro x rows hll htab r hr
    obtain ⟨values, hrange, hscalar, hmem⟩ := f_slice_table_axis_facts ds mode date long_lat
      depth has_depth reduction res sc rows h htab
    obtain ⟨vs, hvs, hfield⟩ := (hmem r hr).2.1
    obtain ⟨vs2, w, hvs2, hnear, hvalues⟩ := hscalar (lonKey mode) x
      (nosliceDefs_mem_lon (lonKey mode) (latKey mode) date long_lat depth has_depth x hll)
      (lonKey_not_mem_sliceDefs mode date long_lat depth has_depth x hll)
    rw [hvalues] at hvs
    injection hvs with hvs
    subst hvs
    simp at hfield
    refine ⟨vs2, hvs2, ?_, ?_⟩
    · rw [hfield]
      exact nearestIn_mem x vs2 w hnear
    · intro v hv
      rw [hfield]
      exact nearestIn_min x vs2 w hnear v hv
  · intro a b rows hll htab r hr
    obtain ⟨values, hrange, hscalar, hmem⟩ := f_slice_table_axis_facts ds mode date long_lat
      depth has_depth reduction res sc rows h htab
    obtain ⟨vs, hvs, hfield⟩ := (hmem r hr).2.2.1
    exact hrange (latKey mode) a b
      (sliceDefs_mem_lat (lonKey mode) (latKey mode) date long_lat depth has_depth a b hll)
      vs hvs _ hfield
  · intro x rows hll htab r hr
    obtain ⟨values, hrange, hscalar, hmem⟩ := f_slice_table_axis_facts ds mode date long_lat
      depth has_depth reduction res sc rows h htab
    obtain ⟨vs, hvs, hfield⟩ := (hmem r hr).2.2.1
    obtain ⟨vs2, w, hvs2, hnear, hvalues⟩ := hscalar (latKey mode) x
      (nosliceDefs_mem_lat (lonKey mode) (latKey mode) date long_lat depth has_depth x hll)
      (latKey_not_mem_sliceDefs mode date long_lat depth has_depth x hll)
    rw [hvalues] at hvs
    injection hvs with hvs
    subst hvs
    simp at hfield
    refine ⟨vs2, hvs2, ?_, ?_⟩
    · rw [hfield]
      exact nearestIn_mem x vs2 w hnear
    · intro v hv
      rw [hfield]
      exact nearestIn_min x vs2 w hnear v hv
  · intro a b rows hdate htab r hr
    obtain ⟨values, hrange, hscalar, hmem⟩ := f_slice_table_axis_facts ds mode date long_lat
      depth has_depth reduction res sc rows h htab
    obtain ⟨vs, hvs, hfield⟩ := (hmem r hr).1
    exact hrange "time" a b
      (sliceDefs_mem_time (lonKey mode) (latKey mode) date long_lat depth has_depth a b hdate)
      vs hvs _ hfield
  · intro x rows hdate htab r hr
    obtain ⟨values, hrange, hscalar, hmem⟩ := f_slice_table_axis_facts ds mode date long_lat
      depth has_depth reduction res sc rows h htab
    obtain ⟨vs, hvs, hfield⟩ := (hmem r hr).1
    obtain ⟨vs2, w, hvs2, hnear, hvalues⟩ := hscalar "time" x
      (nosliceDefs_mem_time (lonKey mode) (latKey mode) date long_lat depth has_depth x hdate)
      (time_not_mem_sliceDefs mode date long_lat depth has_depth x hdate)
    rw [hvalues] at hvs
    injection hvs with hvs
    subst hvs
    simp at hfield
    refine ⟨vs2, hvs2, ?_, ?_⟩
    · rw [hfield]
      exact nearestIn_mem x vs2 w hnear
    · intro v hv
      rw [hfield]
      exact nearestIn_min x vs2 w hnear v hv
  · intro a b rows hdt hdep htab r hr
    subst hdt
    obtain ⟨values, hrange, hscalar, hmem⟩ := f_slice_table_axis_facts ds mode date long_lat
      depth true reduction res sc rows h htab
    obtain ⟨vs, hvs, hfield⟩ := (hmem r hr).2.2.2 rfl
    exact hrange "depth" a b
      (sliceDefs_mem_depth (lonKey mode) (latKey mode) date long_lat depth a b hdep)
      vs hvs _ hfield
  · intro x rows hdt hdep htab r hr
    subst hdt
    obtain ⟨values, hrange, hscalar, hmem⟩ := f_slice_table_axis_facts ds mode date long_lat
      depth true reduction res sc rows h htab
    obtain ⟨vs, hvs, hfield⟩ := (hmem r hr).2.2.2 rfl
    obtain ⟨vs2, w, hvs2, hnear, hvalues⟩ := hscalar "depth" x
      (nosliceDefs_mem_depth (lonKey mode) (latKey mode) date long_lat depth x hdep)
      (depth_not_mem_sliceDefs mode date long_lat depth true x hdep)
    rw [hvalues] at hvs
    injection hvs with hvs
    subst hvs
    simp at hfield
    refine ⟨vs2, hvs2, ?_, ?_⟩
    · rw [hfield]
      exact nearestIn_mem x vs2 w hnear
    · intro v hv
      rw [hfield]
      exact nearestIn_min x vs2 w hnear v hv

theorem f_slice_axis_selection_witness :
    f_slice daSample "lon-lat" (Pt.range 1 2) (Pt.range 0 10, Pt.range 2 4)
        (Pt.range 0 5) true none =
      Except.ok (SliceResult.table
        [{ time := 1, longitude := 0, latitude := 3, depth := 0, value := 7 },
         { time := 1, longitude := 5, latitude := 3, depth := 0, value := 7 },
         { time := 2, longitude := 0, latitude := 3, depth := 0, value := 7 },
         { time := 2, longitude := 5, latitude := 3, depth := 0, value := 7 }],
        { entries := [("time", some [1, 2]), ("lon", some [0, 5]),
                      ("lat", some [3]), ("depth", some [0])] })
    ∧ (∀ r ∈ [({ time := 1, longitude := 0, latitude := 3, depth := 0, value := 7 } : Row),
             { time := 1, longitude := 5, latitude := 3, depth := 0, value := 7 },
             { time := 2, longitude := 0, latitude := 3, depth := 0, value := 7 },
             { time := 2, longitude := 5, latitude := 3, depth := 0, value := 7 }],
        ((0 : ℚ) ≤ r.longitude ∧ r.longitude ≤ 10)
        ∧ ((2 : ℚ) ≤ r.latitude ∧ r.latitude ≤ 4)
        ∧ ((1 : ℚ) ≤ r.time ∧ r.time ≤ 2)
        ∧ ((0 : ℚ) ≤ r.depth ∧ r.depth ≤ 5)) := by
  have heval : f_slice daSample "lon-lat" (Pt.range 1 2) (Pt.range 0 10, Pt.range 2 4)
      (Pt.range 0 5) true none =
      Except.ok (SliceResult.table
        [{ time := 1, longitude := 0, latitude := 3, depth := 0, value := 7 },
         { time := 1, longitude := 5, latitude := 3, depth := 0, value := 7 },
         { time := 2, longitude := 0, latitude := 3, depth := 0, value := 7 },
         { time := 2, longitude := 5, latitude := 3, depth := 0, value := 7 }],
        { entries := [("time", some [1, 2]), ("lon", some [0, 5]),
                      ("lat", some [3]), ("depth", some [0])] }) := rfl
  have hax := f_slice_axis_selection daSample "lon-lat" (Pt.range 1 2)
    (Pt.range 0 10, Pt.range 2 4) (Pt.range 0 5) true none _ _ heval
  refine ⟨heval, fun r hr => ?_⟩
  exact ⟨hax.1 0 10 _ rfl rfl r hr, hax.2.2.1 2 4 _ rfl rfl r hr,
    hax.2.2.2.2.1 1 2 _ rfl rfl r hr, hax.2.2.2.2.2.2.1 0 5 _ rfl rfl rfl r hr⟩

theorem sliceDefs_false (kl ka : String) (date : Pt ℚ) (ll : Pt ℚ × Pt ℚ)
    (dep dep' : Pt ℚ) : sliceDefs kl ka date ll dep false = sliceDefs kl ka date ll dep' false := by
  simp [sliceDefs]

theorem nosliceDefs_false (kl ka : String) (date : Pt ℚ) (ll : Pt ℚ × Pt ℚ)
    (dep dep' : Pt ℚ) : nosliceDefs kl ka date ll dep false = nosliceDefs kl ka date ll dep' false := by
  simp [nosliceDefs]

theorem mkRows_setDepth (kl ka : String) (hkl : kl ≠ "depth") (hka : ka ≠ "depth")
    (d : ℚ) : ∀ (A : List (List (String × ℚ) × ℚ)),
    mkRows kl ka (A.map (fun av => (setDepthEntry d av.1, av.2))) =
    (mkRows kl ka (A.map (fun av => (setDepthEntry 0 av.1, av.2)))).map
      (List.map (fun r => { r with depth := d })) := by
  intro A
  induction A with
  | nil => rfl
  | cons hd rest ih =>
    obtain ⟨a, v⟩ := hd
    simp only [List.map_cons]
    unfold mkRows
    rw [lookupS_setDepthEntry, lookupS_setDepthEntry, lookupS_setDepthEntry,
      lookupS_setDepthEntry, lookupS_setDepthEntry, lookupS_setDepthEntry,
      lookupS_setDepthEntry, lookupS_setDepthEntry]
    simp only [if_neg hkl, if_neg hka,
      if_neg (show ¬(("time" : String) = "depth") by decide),
      if_pos (show ("depth" : String) = "depth" from rfl)]
    cases hT : lookupS "time" a with
    | none => simp [Except.map]
    | some t =>
      cases hL : lookupS kl a with
      | none => simp [Except.map]
      | some lo =>
        cases hA : lookupS ka a with
        | none => simp [Except.map]
        | some la =>
          rw [ih]
          cases hrec : mkRows kl ka (rest.map (fun av => (setDepthEntry 0 av.1, av.2))) with
          | error e => simp [Except.map]
          | ok rows0 => simp [Except.map]

theorem meanVal_map_depth (d : ℚ) (rows : List Row) :
    meanVal (rows.map (fun r => { r with depth := d })) = meanVal rows := by
  unfold meanVal
  cases rows with
  | nil => rfl
  | cons r rs =>
    simp only [List.map_cons, List.length_cons, List.length_map]
    have hv : ∀ (l : List Row), (l.map (fun r => { r with depth := d })).map Row.value
        = l.map Row.value := by
      intro l
      induction l with
      | nil => rfl
      | cons x xs ihx => simp [ihx]
    have hv2 := hv (r :: rs)
    simp only [List.map_cons] at hv2
    rw [hv2]

theorem lookupS_four_depth (kl ka : String) (hkl : kl ≠ "depth") (hka : ka ≠ "depth")
    (ts ls las : List ℚ) (dep : Option (List ℚ)) :
    lookupS "depth" [("time", some ts), (kl, some ls), (ka, some las), ("depth", dep)]
      = some dep := by
  rw [lookupS_cons, if_neg (by decide : ¬("time" = "depth")), lookupS_cons, if_neg hkl,
    lookupS_cons, if_neg hka, lookupS_cons, if_pos rfl]


/-- C7: for a dataset without a depth axis the requested (scalar) depth is
ignored for selection — the result is the result of the same query at depth
zero with the depth column of every row overwritten verbatim by the
requested depth — the rows report the requested depth verbatim, and the
selected-coordinates output reports the depth as nan (none); for a dataset
with a depth axis, depth is sliced or nearest-selected like the other axes
and the selected-coordinates output reports the actual depth values used,
every row depth being one of them. -/
theorem f_slice_depth_handling (ds : DataArray) (mode : String) (date : Pt ℚ)
    (long_lat : Pt ℚ × Pt ℚ) (d : ℚ) (dep : Pt ℚ) (reduction : Option String) :
    (f_slice ds mode date long_lat (Pt.scalar d) false reduction =
      Except.map (fun p => (setDepthRes d p.1, p.2))
        (f_slice ds mode date long_lat (Pt.scalar 0) false reduction))
    ∧ (∀ res sc, f_slice ds mode date long_lat (Pt.scalar d) false reduction
          = Except.ok (res, sc) →
        lookupS "depth" sc.entries = some none
        ∧ ∀ rows, res = SliceResult.table rows → ∀ r ∈ rows, r.depth = d)
    ∧ (∀ res sc, f_slice ds mode date long_lat dep true reduction = Except.ok (res, sc) →
        (∃ zs, lookupS "depth" sc.entries = some (some zs)
          ∧ ∀ rows, res = SliceResult.table rows → ∀ r ∈ rows, r.depth ∈ zs)
        ∧ (∀ a b rows, dep = Pt.range a b → res = SliceResult.table rows →
            ∀ r ∈ rows, a ≤ r.depth ∧ r.depth ≤ b)
        ∧ (∀ x rows, dep = Pt.scalar x → res = SliceResult.table rows →
            ∀ r ∈ rows, ∃ vs, lookupS "depth" (DataArray.dropDuplicates ds).axes = some vs
              ∧ r.depth ∈ vs ∧ ∀ v ∈ vs, |x - r.depth| ≤ |x - v|)) := by
  refine ⟨?_, ?_, ?_⟩
  · simp only [f_slice]
    rw [sliceDefs_false (lonKey mode) (latKey mode) date long_lat (Pt.scalar d) (Pt.scalar 0),
      nosliceDefs_false (lonKey mode) (latKey mode) date long_lat (Pt.scalar d) (Pt.scalar 0)]
    cases hs : selSlices (DataArray.dropDuplicates ds)
        (sliceDefs (lonKey mode) (latKey mode) date long_lat (Pt.scalar 0) false) with
    | error e => simp [hs, Except.map]
    | ok ds2 =>
      simp only [hs]
      cases hn : selNearests ds2
          (nosliceDefs (lonKey mode) (latKey mode) date long_lat (Pt.scalar 0) false) with
      | error e => simp [hn, Except.map]
      | ok values =>
        simp only [hn]
        simp only [depthAdjusted, Bool.false_eq_true, if_false, assignDepthCol]
        rw [mkRows_setDepth (lonKey mode) (latKey mode) (lonKey_ne_depth mode)
          (latKey_ne_depth mode) d values.toAssignments]
        cases hrec : mkRows (lonKey mode) (latKey mode)
            (values.toAssignments.map (fun av => (setDepthEntry 0 av.1, av.2))) with
        | error e => simp [Except.map]
        | ok rows0 =>
          simp only [Except.map]
          cases hsc : selectedCoords (lonKey mode) (latKey mode) false values with
          | error e => simp [Except.map]
          | ok sc =>
            by_cases hred : reduction = some "mean"
            · simp [hred, meanVal_map_depth, setDepthRes]
            · simp [hred, setDepthRes]
  · intro res sc h
    obtain ⟨ds2, values, assigns, rows0, hs, hn, hda, hr, hsc, hres⟩ :=
      f_slice_ok_parts ds mode date long_lat (Pt.scalar d) false reduction res sc h
    obtain ⟨ts, ls, las, dep0, hT, hL, hA, hentries, _, hfalse⟩ :=
      selectedCoords_ok (lonKey mode) (latKey mode) false values sc hsc
    have hdep0 : dep0 = none := hfalse rfl
    subst hdep0
    constructor
    · rw [hentries]
      exact lookupS_four_depth (lonKey mode) (latKey mode) (lonKey_ne_depth mode)
        (latKey_ne_depth mode) ts ls las none
    · intro rows htab r hr2
      rw [table_rows_of_res reduction rows0 res hres rows htab] at hr2
      obtain ⟨a', hamem, ht1, ht2, ht3, hdepLookup⟩ :=
        mkRows_mem (lonKey mode) (latKey mode) assigns rows0 hr r hr2
      have hdval := depthAdjusted_depth_value d values.toAssignments assigns hda a' r.value hamem
      rw [hdval] at hdepLookup
      injection hdepLookup with h2
      exact h2.symm
  · intro res sc h
    refine ⟨?_, ?_, ?_⟩
    · obtain ⟨ds2, values, assigns, rows0, hs, hn, hda, hr, hsc, hres⟩ :=
        f_slice_ok_parts ds mode date long_lat dep true reduction res sc h
      obtain ⟨ts, ls, las, dep0, hT, hL, hA, hentries, htrue, _⟩ :=
        selectedCoords_ok (lonKey mode) (latKey mode) true values sc hsc
      obtain ⟨zs, hzs, hdep0⟩ := htrue rfl
      subst hdep0
      refine ⟨zs, ?_, ?_⟩
      · rw [hentries]
        exact lookupS_four_depth (lonKey mode) (latKey mode) (lonKey_ne_depth mode)
          (latKey_ne_depth mode) ts ls las (some zs)
      · intro rows htab r hr2
        rw [table_rows_of_res reduction rows0 res hres rows htab] at hr2
        obtain ⟨a2, hamem, ht1, ht2, ht3, hdepLookup⟩ :=
          mkRows_mem (lonKey mode) (latKey mode) assigns rows0 hr r hr2
        obtain ⟨a0, ha0mem, htrans, heq⟩ :=
          depthAdjusted_transfer dep true values.toAssignments assigns hda a2 r.value hamem
        have ha2 : a2 = a0 := heq rfl
        subst ha2
        have hd0 : lookupS "depth" a2 = some r.depth := hdepLookup
        obtain ⟨vs, hvs, hmemv⟩ := axesProduct_lookup values.axes a2
          (toAssignments_mem values a2 r.value ha0mem) "depth" r.depth hd0
        rw [hzs] at hvs
        injection hvs with hvs
        rw [hvs]
        exact hmemv
    · intro a b rows hdep htab r hr2
      obtain ⟨values, hrange, hscalar, hmem⟩ := f_slice_table_axis_facts ds mode date long_lat
        dep true reduction res sc rows h htab
      obtain ⟨vs, hvs, hfield⟩ := (hmem r hr2).2.2.2 rfl
      exact hrange "depth" a b
        (sliceDefs_mem_depth (lonKey mode) (latKey mode) date long_lat dep a b hdep)
        vs hvs _ hfield
    · intro x rows hdep htab r hr2
      obtain ⟨values, hrange, hscalar, hmem⟩ := f_slice_table_axis_facts ds mode date long_lat
        dep true reduction res sc rows h htab
      obtain ⟨vs, hvs, hfield⟩ := (hmem r hr2).2.2.2 rfl
      obtain ⟨vs2, w, hvs2, hnear, hvalues⟩ := hscalar "depth" x
        (nosliceDefs_mem_depth (lonKey mode) (latKey mode) date long_lat dep x hdep)
        (depth_not_mem_sliceDefs mode date long_lat dep true x hdep)
      rw [hvalues] at hvs
      injection hvs with hvs
      subst hvs
      simp at hfield
      refine ⟨vs2, hvs2, ?_, ?_⟩
      · rw [hfield]
        exact nearestIn_mem x vs2 w hnear
      · intro v hv
        rw [hfield]
        exact nearestIn_min x vs2 w hnear v hv

theorem f_slice_depth_handling_witness :
    f_slice daFlat "longitude-latitude" (Pt.range 1 2) (Pt.range 0 10, Pt.range 2 4)
        (Pt.scalar 9) false none =
      Except.ok (SliceResult.table
        [{ time := 1, longitude := 0, latitude := 3, depth := 9, value := 7 },
         { time := 1, longitude := 5, latitude := 3, depth := 9, value := 7 },
         { time := 2, longitude := 0, latitude := 3, depth := 9, value := 7 },
         { time := 2, longitude := 5, latitude := 3, depth := 9, value := 7 }],
        { entries := [("time", some [1, 2]), ("longitude", some [0, 5]),
                      ("latitude", some [3]), ("depth", none)] })
    ∧ lookupS "depth" [("time", some [(1 : ℚ), 2]), ("longitude", some [0, 5]),
        ("latitude", some [3]), ("depth", none)] = some none
    ∧ (∀ r ∈ [({ time := 1, longitude := 0, latitude := 3, depth := 9, value := 7 } : Row),
             { time := 1, longitude := 5, latitude := 3, depth := 9, value := 7 },
             { time := 2, longitude := 0, latitude := 3, depth := 9, value := 7 },
             { time := 2, longitude := 5, latitude := 3, depth := 9, value := 7 }],
        r.depth = 9)
    ∧ (∀ r ∈ [({ time := 1, longitude := 0, latitude := 3, depth := 0, value := 7 } : Row),
             { time := 1, longitude := 5, latitude := 3, depth := 0, value := 7 },
             { time := 2, longitude := 0, latitude := 3, depth := 0, value := 7 },
             { time := 2, longitude := 5, latitude := 3, depth := 0, value := 7 }],
        (0 : ℚ) ≤ r.depth ∧ r.depth ≤ 5) := by
  have heval : f_slice daFlat "longitude-latitude" (Pt.range 1 2) (Pt.range 0 10, Pt.range 2 4)
      (Pt.scalar 9) false none =
      Except.ok (SliceResult.table
        [{ time := 1, longitude := 0, latitude := 3, depth := 9, value := 7 },
         { time := 1, longitude := 5, latitude := 3, depth := 9, value := 7 },
         { time := 2, longitude := 0, latitude := 3, depth := 9, value := 7 },
         { time := 2, longitude := 5, latitude := 3, depth := 9, value := 7 }],
        { entries := [("time", some [1, 2]), ("longitude", some [0, 5]),
                      ("latitude", some [3]), ("depth", none)] }) := rfl
  have heval2 : f_slice daSample "lon-lat" (Pt.range 1 2) (Pt.range 0 10, Pt.range 2 4)
      (Pt.range 0 5) true none =
      Except.ok (SliceResult.table
        [{ time := 1, longitude := 0, latitude := 3, depth := 0, value := 7 },
         { time := 1, longitude := 5, latitude := 3, depth := 0, value := 7 },
         { time := 2, longitude := 0, latitude := 3, depth := 0, value := 7 },
         { time := 2, longitude := 5, latitude := 3, depth := 0, value := 7 }],
        { entries := [("time", some [1, 2]), ("lon", some [0, 5]),
                      ("lat", some [3]), ("depth", some [0])] }) := rfl
  have hparts := (f_slice_depth_handling daFlat "longitude-latitude" (Pt.range 1 2)
    (Pt.range 0 10, Pt.range 2 4) 9 (Pt.scalar 0) none).2.1 _ _ heval
  have hdslice := (f_slice_depth_handling daSample "lon-lat" (Pt.range 1 2)
    (Pt.range 0 10, Pt.range 2 4) 0 (Pt.range 0 5) none).2.2 _ _ heval2
  refine ⟨heval, ?_, fun r hr => hparts.2 _ rfl r hr,
    fun r hr => hdslice.2.1 0 5 _ rfl rfl r hr⟩
  simpa using hparts.1

theorem lookupS_second {α : Type} (k1 k : String) (h : k1 ≠ k) (x y : α)
    (rest : List (String × α)) : lookupS k ((k1, x) :: (k, y) :: rest) = some y := by
  rw [lookupS_cons, if_neg h, lookupS_cons, if_pos rfl]

theorem lookupS_third {α : Type} (k1 k2 k : String) (h1 : k1 ≠ k) (h2 : k2 ≠ k)
    (x y z : α) (rest : List (String × α)) :
    lookupS k ((k1, x) :: (k2, y) :: (k, z) :: rest) = some z := by
  rw [lookupS_cons, if_neg h1, lookupS_cons, if_neg h2, lookupS_cons, if_pos rfl]

theorem lookupS_fourth {α : Type} (k1 k2 k3 k : String) (h1 : k1 ≠ k) (h2 : k2 ≠ k)
    (h3 : k3 ≠ k) (x y z w : α) (rest : List (String × α)) :
    lookupS k ((k1, x) :: (k2, y) :: (k3, z) :: (k, w) :: rest) = some w := by
  rw [lookupS_cons, if_neg h1, lookupS_cons, if_neg h2, lookupS_cons, if_neg h3,
    lookupS_cons, if_pos rfl]

theorem axes_of_names (l : List (String × List ℚ)) (s1 s2 s3 s4 : String)
    (h : l.map Prod.fst = [s1, s2, s3, s4]) :
    ∃ v1 v2 v3 v4, l = [(s1, v1), (s2, v2), (s3, v3), (s4, v4)] := by
  cases l with
  | nil => simp at h
  | cons e1 t1 =>
    cases t1 with
    | nil => simp at h
    | cons e2 t2 =>
      cases t2 with
      | nil => simp at h
      | cons e3 t3 =>
        cases t3 with
        | nil => simp at h
        | cons e4 t4 =>
          cases t4 with
          | cons e5 t5 => simp at h
          | nil =>
            obtain ⟨a1, b1⟩ := e1
            obtain ⟨a2, b2⟩ := e2
            obtain ⟨a3, b3⟩ := e3
            obtain ⟨a4, b4⟩ := e4
            simp only [List.map_cons, List.map_nil, List.cons.injEq, and_true] at h
            obtain ⟨h1, h2, h3, h4⟩ := h
            subst h1
            subst h2
            subst h3
            subst h4
            exact ⟨b1, b2, b3, b4, rfl⟩

/-- C8: the selected slice is flattened into a table in which every sampled
point is one row indexed by time, longitude, latitude and depth — the row
fields are named longitude and latitude whatever the native lon-lat or
longitude-latitude convention of the backend was, every row coordinate
being one of the actually selected coordinate values — and requesting the
mean reduction yields exactly the table of the unreduced query collapsed to
a single scalar, its mean; over a four-axis dataset the number of rows is
exactly the product of the selected axis sizes, one row per sampled
point. -/
theorem f_slice_output_shaping (ds : DataArray) (mode : String) (date : Pt ℚ)
    (long_lat : Pt ℚ × Pt ℚ) (dep : Pt ℚ) (hd : Bool) (reduction : Option String) :
    (f_slice ds mode date long_lat dep hd (some "mean") =
      Except.map (fun p => (meanify p.1, p.2)) (f_slice ds mode date long_lat dep hd none))
    ∧ (∀ res sc rows, f_slice ds mode date long_lat dep hd reduction = Except.ok (res, sc) →
        res = SliceResult.table rows →
        ∀ r ∈ rows,
          (∃ ts, lookupS "time" sc.entries = some (some ts) ∧ r.time ∈ ts)
          ∧ (∃ ls, lookupS (lonKey mode) sc.entries = some (some ls) ∧ r.longitude ∈ ls)
          ∧ (∃ las, lookupS (latKey mode) sc.entries = some (some las) ∧ r.latitude ∈ las)
          ∧ (hd = true → ∃ zs, lookupS "depth" sc.entries = some (some zs) ∧ r.depth ∈ zs))
    ∧ (∀ ts0 ls0 as0 zs0 res sc rows,
        ds.axes = [("time", ts0), (lonKey mode, ls0), (latKey mode, as0), ("depth", zs0)] →
        hd = true →
        f_slice ds mode date long_lat dep hd reduction = Except.ok (res, sc) →
        res = SliceResult.table rows →
        ∃ ts ls las zs,
          sc.entries = [("time", some ts), (lonKey mode, some ls), (latKey mode, some las),
            ("depth", some zs)]
          ∧ rows.length = ts.length * (ls.length * (las.length * zs.length))) := by
  refine ⟨?_, ?_, ?_⟩
  · simp only [f_slice]
    cases hs : selSlices (DataArray.dropDuplicates ds)
        (sliceDefs (lonKey mode) (latKey mode) date long_lat dep hd) with
    | error e => simp [hs, Except.map]
    | ok ds2 =>
      simp only [hs]
      cases hn : selNearests ds2
          (nosliceDefs (lonKey mode) (latKey mode) date long_lat dep hd) with
      | error e => simp [hn, Except.map]
      | ok values =>
        simp only [hn]
        cases hda : depthAdjusted dep hd values.toAssignments with
        | error e => simp [hda, Except.map]
        | ok assigns =>
          simp only [hda]
          cases hr : mkRows (lonKey mode) (latKey mode) assigns with
          | error e => simp [hr, Except.map]
          | ok rows0 =>
            simp only [hr]
            cases hsc : selectedCoords (lonKey mode) (latKey mode) hd values with
            | error e => simp [hsc, Except.map]
            | ok sc => simp [hsc, Except.map, meanify]
  · intro res sc rows h htab r hr2
    obtain ⟨ds2, values, assigns, rows0, hs, hn, hda, hr, hsc, hres⟩ :=
      f_slice_ok_parts ds mode date long_lat dep hd reduction res sc h
    rw [table_rows_of_res reduction rows0 res hres rows htab] at hr2
    obtain ⟨ts, ls, las, dep0, hT, hL, hA, hentries, htrue, hfalse⟩ :=
      selectedCoords_ok (lonKey mode) (latKey mode) hd values sc hsc
    obtain ⟨a', hamem, ht1, ht2, ht3, ht4⟩ :=
      mkRows_mem (lonKey mode) (latKey mode) assigns rows0 hr r hr2
    obtain ⟨a0, ha0mem, htrans, heq⟩ :=
      depthAdjusted_transfer dep hd values.toAssignments assigns hda a' r.value hamem
    have hprod := toAssignments_mem values a0 r.value ha0mem
    have hmemof : ∀ (k : String), k ≠ "depth" → ∀ xv, lookupS k a' = some xv →
        ∃ vs, lookupS k values.axes = some vs ∧ xv ∈ vs := by
      intro k hk xv hxv
      have hxv0 : lookupS k a0 = some xv := by
        rw [← htrans k hk]
        exact hxv
      exact axesProduct_lookup values.axes a0 hprod k xv hxv0
    refine ⟨?_, ?_, ?_, ?_⟩
    · obtain ⟨vs, hvs, hmv⟩ := hmemof "time" (by decide) r.time ht1
      rw [hT] at hvs
      injection hvs with hvs
      subst hvs
      refine ⟨ts, ?_, hmv⟩
      rw [hentries, lookupS_cons, if_pos rfl]
    · obtain ⟨vs, hvs, hmv⟩ := hmemof (lonKey mode) (lonKey_ne_depth mode) r.longitude ht2
      rw [hL] at hvs
      injection hvs with hvs
      subst hvs
      refine ⟨ls, ?_, hmv⟩
      rw [hentries]
      exact lookupS_second "time" (lonKey mode) (Ne.symm (lonKey_ne_time mode)) _ _ _
    · obtain ⟨vs, hvs, hmv⟩ := hmemof (latKey mode) (latKey_ne_depth mode) r.latitude ht3
      rw [hA] at hvs
      injection hvs with hvs
      subst hvs
      refine ⟨las, ?_, hmv⟩
      rw [hentries]
      exact lookupS_third "time" (lonKey mode) (latKey mode)
        (Ne.symm (latKey_ne_time mode)) (lonKey_ne_latKey mode) _ _ _ _
    · intro hdt
      obtain ⟨zs, hzs, hdep0⟩ := htrue hdt
      subst hdep0
      have ha'0 : a' = a0 := heq hdt
      have hd0 : lookupS "depth" a0 = some r.depth := by
        rw [← ha'0]
        exact ht4
      obtain ⟨vs, hvs, hmv⟩ := axesProduct_lookup values.axes a0 hprod "depth" r.depth hd0
      rw [hzs] at hvs
      injection hvs with hvs
      subst hvs
      refine ⟨zs, ?_, hmv⟩
      rw [hentries]
      exact lookupS_four_depth (lonKey mode) (latKey mode) (lonKey_ne_depth mode)
        (latKey_ne_depth mode) ts ls las (some zs)
  · intro ts0 ls0 as0 zs0 res sc rows haxes hdt h htab
    obtain ⟨ds2, values, assigns, rows0, hs, hn, hda, hr, hsc, hres⟩ :=
      f_slice_ok_parts ds mode date long_lat dep hd reduction res sc h
    have hnames : values.axes.map Prod.fst = ["time", lonKey mode, latKey mode, "depth"] := by
      rw [selNearests_names _ _ _ hn, selSlices_names _ _ _ hs, dropDuplicates_names, haxes]
      rfl
    obtain ⟨v1, v2, v3, v4, hvstruct⟩ :=
      axes_of_names values.axes "time" (lonKey mode) (latKey mode) "depth" hnames
    obtain ⟨ts, ls, las, dep0, hT, hL, hA, hentries, htrue, hfalse⟩ :=
      selectedCoords_ok (lonKey mode) (latKey mode) hd values sc hsc
    obtain ⟨zs, hzs, hdep0⟩ := htrue hdt
    subst hdep0
    have hT2 : lookupS "time" values.axes = some v1 := by
      rw [hvstruct, lookupS_cons, if_pos rfl]
    have hL2 : lookupS (lonKey mode) values.axes = some v2 := by
      rw [hvstruct]
      exact lookupS_second "time" (lonKey mode) (Ne.symm (lonKey_ne_time mode)) _ _ _
    have hA2 : lookupS (latKey mode) values.axes = some v3 := by
      rw [hvstruct]
      exact lookupS_third "time" (lonKey mode) (latKey mode)
        (Ne.symm (latKey_ne_time mode)) (lonKey_ne_latKey mode) _ _ _ _
    have hZ2 : lookupS "depth" values.axes = some v4 := by
      rw [hvstruct]
      exact lookupS_fourth "time" (lonKey mode) (latKey mode) "depth"
        (by decide) (lonKey_ne_depth mode) (latKey_ne_depth mode) _ _ _ _ _
    rw [hT2] at hT
    rw [hL2] at hL
    rw [hA2] at hA
    rw [hZ2] at hzs
    injection hT with hT
    injection hL with hL
    injection hA with hA
    injection hzs with hzs
    subst hT
    subst hL
    subst hA
    subst hzs
    refine ⟨v1, v2, v3, v4, hentries, ?_⟩
    have hlen1 : rows0.length = assigns.length :=
      mkRows_length (lonKey mode) (latKey mode) assigns rows0 hr
    have hassigns : assigns = values.toAssignments := by
      unfold depthAdjusted at hda
      rw [if_pos hdt] at hda
      injection hda with hda
      exact hda.symm
    have hlen2 : values.toAssignments.length = (axesProduct values.axes).length := by
      unfold DataArray.toAssignments
      rw [List.length_map]
    rw [table_rows_of_res reduction rows0 res hres rows htab, hlen1, hassigns, hlen2,
      axesProduct_length, hvstruct]
    simp

theorem f_slice_output_shaping_witness :
    f_slice daSample "lon-lat" (Pt.range 1 2) (Pt.range 0 10, Pt.range 2 4)
        (Pt.range 0 15) true none =
      Except.ok (SliceResult.table
        [{ time := 1, longitude := 0, latitude := 3, depth := 0, value := 7 },
         { time := 1, longitude := 0, latitude := 3, depth := 10, value := 7 },
         { time := 1, longitude := 5, latitude := 3, depth := 0, value := 7 },
         { time := 1, longitude := 5, latitude := 3, depth := 10, value := 7 },
         { time := 2, longitude := 0, latitude := 3, depth := 0, value := 7 },
         { time := 2, longitude := 0, latitude := 3, depth := 10, value := 7 },
         { time := 2, longitude := 5, latitude := 3, depth := 0, value := 7 },
         { time := 2, longitude := 5, latitude := 3, depth := 10, value := 7 }],
        { entries := [("time", some [1, 2]), ("lon", some [0, 5]),
                      ("lat", some [3]), ("depth", some [0, 10])] })
    ∧ ∃ ts ls las zs,
        ({ entries := [("time", some [1, 2]), ("lon", some [0, 5]),
                       ("lat", some [3]), ("depth", some [0, 10])] } : SelectedCoords).entries
          = [("time", some ts), (lonKey "lon-lat", some ls), (latKey "lon-lat", some las),
             ("depth", some zs)]
        ∧ ([({ time := 1, longitude := 0, latitude := 3, depth := 0, value := 7 } : Row),
            { time := 1, longitude := 0, latitude := 3, depth := 10, value := 7 },
            { time := 1, longitude := 5, latitude := 3, depth := 0, value := 7 },
            { time := 1, longitude := 5, latitude := 3, depth := 10, value := 7 },
            { time := 2, longitude := 0, latitude := 3, depth := 0, value := 7 },
            { time := 2, longitude := 0, latitude := 3, depth := 10, value := 7 },
            { time := 2, longitude := 5, latitude := 3, depth := 0, value := 7 },
            { time := 2, longitude := 5, latitude := 3, depth := 10, value := 7 }]).length
          = ts.length * (ls.length * (las.length * zs.length)) := by
  have heval : f_slice daSample "lon-lat" (Pt.range 1 2) (Pt.range 0 10, Pt.range 2 4)
      (Pt.range 0 15) true none =
      Except.ok (SliceResult.table
        [{ time := 1, longitude := 0, latitude := 3, depth := 0, value := 7 },
         { time := 1, longitude := 0, latitude := 3, depth := 10, value := 7 },
         { time := 1, longitude := 5, latitude := 3, depth := 0, value := 7 },
         { time := 1, longitude := 5, latitude := 3, depth := 10, value := 7 },
         { time := 2, longitude := 0, latitude := 3, depth := 0, value := 7 },
         { time := 2, longitude := 0, latitude := 3, depth := 10, value := 7 },
         { time := 2, longitude := 5, latitude := 3, depth := 0, value := 7 },
         { time := 2, longitude := 5, latitude := 3, depth := 10, value := 7 }],
        { entries := [("time", some [1, 2]), ("lon", some [0, 5]),
                      ("lat", some [3]), ("depth", some [0, 10])] }) := rfl
  exact ⟨heval, (f_slice_output_shaping daSample "lon-lat" (Pt.range 1 2)
    (Pt.range 0 10, Pt.range 2 4) (Pt.range 0 15) true none).2.2
    [1, 2] [0, 5, 20] [3] [0, 10] _ _ _ rfl rfl heval rfl⟩

theorem f_slice_reduction_passthrough_witness :
    (some "max" ≠ some "mean")
    ∧ f_slice daSample "lon-lat" (Pt.range 1 2) (Pt.range 0 10, Pt.range 2 4)
        (Pt.range 0 15) true (some "max")
      = f_slice daSample "lon-lat" (Pt.range 1 2) (Pt.range 0 10, Pt.range 2 4)
        (Pt.range 0 15) true none := by
  refine ⟨by decide, ?_⟩
  exact (f_slice_reduction_passthrough daSample "lon-lat" (Pt.range 1 2)
    (Pt.range 0 10, Pt.range 2 4) (Pt.range 0 15) true (some "max") (by decide)).1
